import Mathlib

/-!
Verification of the wavefront-estimation pipeline controller (`ts_tcs_wep`).

This file gives a shallow embedding, in Lean 4, of the parts of the repository
that the checked claims are about:

* `wep/WEPController.py` — sensor-name handling (`doISR`, `__getSensorInfo`),
  the defocal-image map (`getPostISRDefocalImgMap`, wavefront-directory branch),
  the star-map analysis (`__analyzeStarMap`, `getTargetStarByFile`) and the
  donut-map assembly (`getDonutMap`, `__searchDonutListId`).
* `python/lsst/ts/wep/bsc/LocalDatabase.py` — `searchRaDecl`, `insertData`,
  `updateData`.
* `testScript/cwfs/runWEP.py` — `__readConfigFile`.

External collaborators that the controller calls (`SourceProcessor`,
`IsrWrapper`, database connections, the file system) are represented by
explicit function parameters or by traces of the calls that were issued.
Containers defined in repository files that are not part of this source
snapshot (`wep/DefocalImage.py`: `DefocalImage`, `DonutImage`) are modelled
from the specification, as marked on their declarations.

Numbers: Python floats that only flow through the code unchanged are
modelled as `Rat`; the 6-decimal `%f` formatting used by `searchRaDecl`
is modelled by explicit rounding on `Rat`.
-/

/-! ## Sensor names (`WEPController.__getSensorInfo`, `WEPController.doISR`)

`__getSensorInfo` applies the Python regular expression
`R:(\d,\d) S:(\d,\d)(?:,([A,B]))?$` with `re.match`.  Two properties of that
pattern matter below: the character class `[A,B]` contains the comma, and in
Python `$` also matches just before a single trailing newline.  `matchSensorName`
is a direct transcription of that matching behaviour. -/

/-- The regex character class `[A,B]` of `__getSensorInfo`: it matches
the letter A, the letter B, and (by the source`s literal class) a comma. -/
def isAmpChar (c : Char) : Bool :=
  c = 'A' || c = ',' || c = 'B'

/-- Python `$`-anchor semantics for `re.match`: the remaining input must be
empty or a single trailing newline. -/
def endsOk : List Char → Bool
  | [] => true
  | ['\n'] => true
  | _ => false

/-- `WEPController.__getSensorInfo`: apply
`re.match(r"R:(\d,\d) S:(\d,\d)(?:,([A,B]))?$", sensorName)` and return the
three groups (raft, sensor, optional channel); `none` models a failed match
(all three Python results `None`). -/
def matchSensorName (sensorName : String) : Option (String × String × Option Char) :=
  match sensorName.toList with
  | 'R' :: ':' :: r0 :: ',' :: r1 :: ' ' :: 'S' :: ':' :: s0 :: ',' :: s1 :: rest =>
    if r0.isDigit && r1.isDigit && s0.isDigit && s1.isDigit then
      let raft := String.mk [r0, ',', r1]
      let sensor := String.mk [s0, ',', s1]
      match rest with
      | ',' :: c :: rest2 =>
        -- greedy optional group, with regex backtracking to the no-group case
        if isAmpChar c && endsOk rest2 then some (raft, sensor, some c)
        else if endsOk rest then some (raft, sensor, none)
        else none
      | _ => if endsOk rest then some (raft, sensor, none) else none
    else none
  | _ => none

/-- `WEPController.doISR`: parse the sensor name; on a match, dispatch to the
ISR wrapper with the raft and sensor (the channel is passed as `None` at the
call site); otherwise raise `RuntimeError`.  The `.ok` payload records the
raft and sensor handed to `isrWrapper.doISR`. -/
def doISR (sensorName : String) : Except String (String × String) :=
  match matchSensorName sensorName with
  | some (raft, sensor, _channel) => .ok (raft, sensor)
  | none => .error ("Sensor name " ++ sensorName ++ " is not allowed.")

/-- The canonical detector-name form stated by the spec:
`R:<digit>,<digit> S:<digit>,<digit>` optionally followed by `,A` or `,B`,
and nothing else. -/
def isCanonicalSensorName (s : String) : Bool :=
  match s.toList with
  | 'R' :: ':' :: r0 :: ',' :: r1 :: ' ' :: 'S' :: ':' :: s0 :: ',' :: s1 :: rest =>
    r0.isDigit && r1.isDigit && s0.isDigit && s1.isDigit &&
      (rest = [] || rest = [',', 'A'] || rest = [',', 'B'])
  | _ => false

/-! ## The defocal-image map (`WEPController.getPostISRDefocalImgMap`)

Only the wavefront-directory branch (`wfsDir is not None`) is modelled: the
composition of `__getRawFileList`, `abbrevDectectorName` and
`__searchFileName` followed by `fits.getdata` is abstracted into a single
`fileMatch` function from the sensor name to the optional matched image. -/

/-- Modelled from the spec: `DefocalImage` from `wep/DefocalImage.py` (that
file is not in this source snapshot); a container holding the optional
intra-focal and extra-focal images of one sensor. -/
structure DefocalImage (α : Type) where
  intraImg : Option α
  extraImg : Option α
deriving DecidableEq

/-- Modelled from the spec: `DefocalImage.setImg` fills whichever of the two
focal roles is supplied and leaves the other unchanged. -/
def DefocalImage.setImg {α : Type} (d : DefocalImage α) (intra extra : Option α) :
    DefocalImage α :=
  ⟨match intra with | some i => some i | none => d.intraImg,
   match extra with | some e => some e | none => d.extraImg⟩

/-- The channel suffix of a sensor name, as `__getSensorInfo` extracts it. -/
def channelOf (sensorName : String) : Option Char :=
  match matchSensorName sensorName with
  | some (_, _, c) => c
  | none => none

/-- `WEPController.getPostISRDefocalImgMap`, wavefront-directory branch:
for each sensor name, when a file matches, store a fresh `DefocalImage` for
that name and fill the intra slot when the channel is `A` and the extra slot
when the channel is `B` (any other channel leaves both slots empty).
The resulting dictionary is modelled as a function from sensor names. -/
def wfsMapStep {α : Type} (fileMatch : String → Option α)
    (wfsImgMap : String → Option (DefocalImage α)) (sensorName : String)
    (k : String) : Option (DefocalImage α) :=
  match fileMatch sensorName with
  | none => wfsImgMap k
  | some wfsImg =>
    -- a fresh DefocalImage() is stored under the sensor name; then
    -- "C0" = "A" = intra-focal image; "C1" = "B" = extra-focal image
    if k = sensorName then
      some (if channelOf sensorName = some 'A' then
              DefocalImage.setImg ⟨none, none⟩ (some wfsImg) none
            else if channelOf sensorName = some 'B' then
              DefocalImage.setImg ⟨none, none⟩ none (some wfsImg)
            else ⟨none, none⟩)
    else wfsImgMap k

def getPostISRDefocalImgMapWfs {α : Type} (fileMatch : String → Option α)
    (sensorNameList : List String) : String → Option (DefocalImage α) :=
  sensorNameList.foldl (wfsMapStep fileMatch) (fun _ => none)

/-- Every entry of a defocal-image map respects the channel/focal-role
correspondence: an `A` channel fills only the intra slot, a `B` channel
fills only the extra slot. -/
def defocalRoleProp {α : Type} (fileMatch : String → Option α)
    (m : String → Option (DefocalImage α)) : Prop :=
  ∀ k d, m k = some d →
    (channelOf k = some 'A' → d.intraImg = fileMatch k ∧ d.extraImg = none)
    ∧ (channelOf k = some 'B' → d.extraImg = fileMatch k ∧ d.intraImg = none)

/-! ## Configuration-file echoing (`runWEP.__readConfigFile`)

The Python original strips each line, toggles a block-comment state with
`iscomment = ~iscomment` on lines starting with `###` (bitwise complement on
the state, which alternates between a falsy and a truthy integer), and writes
the line when it does not start with `#`, the state is falsy, and the line is
nonempty.  The state is modelled as the `Int` it becomes after the first
toggle (`False` behaves as `0`). -/

/-- The whitespace characters removed by Python `str.strip`. -/
def isPyWhitespace (c : Char) : Bool :=
  c = ' ' || c = '\t' || c = '\n' || c = '\r' || c = '\x0b' || c = '\x0c'

/-- Python `line.strip()`. -/
def pyStrip (s : String) : String :=
  String.mk (((s.toList.dropWhile isPyWhitespace).reverse.dropWhile isPyWhitespace).reverse)

/-- `runWEP.__readConfigFile`, the per-line loop: returns the stripped lines
that are written to the output, in order.  `iscomment` starts at `0`
(Python `False`) and each `###` line replaces it by its bitwise complement
`-1 - iscomment`; a line is written when it does not start with `#`, the
state is falsy (`= 0`) and the stripped line is nonempty. -/
def readConfigLines : List String → Int → List String
  | [], _ => []
  | line :: rest, iscomment =>
    let stripped := pyStrip line
    let iscomment :=
      if ['#', '#', '#'].isPrefixOf stripped.toList then -1 - iscomment else iscomment
    if !(['#'].isPrefixOf stripped.toList) && iscomment == 0 && stripped.length > 0 then
      stripped :: readConfigLines rest iscomment
    else
      readConfigLines rest iscomment

/-- `runWEP.__readConfigFile` applied to the lines of the configuration file. -/
def readConfigFile (lines : List String) : List String :=
  readConfigLines lines 0

/-- The echoing behaviour in the words of the specification: a line is kept
iff its stripped form is nonempty, does not start with `#` (which covers the
`###` delimiter lines), and the number of `###` delimiter lines before it is
even (i.e. it does not lie inside a `###`-delimited block); kept lines are
emitted stripped, in input order.  `nDelimBefore` counts the delimiter lines
already seen. -/
def specConfigEcho : List String → Nat → List String
  | [], _ => []
  | line :: rest, nDelimBefore =>
    let stripped := pyStrip line
    let nd :=
      if ['#', '#', '#'].isPrefixOf stripped.toList then nDelimBefore + 1 else nDelimBefore
    if !(['#'].isPrefixOf stripped.toList) && nDelimBefore % 2 == 0 && stripped.length > 0 then
      stripped :: specConfigEcho rest nd
    else
      specConfigEcho rest nd

/-! ## Catalog updates (`LocalDatabase.updateData`)

The sqlite cursor is modelled by the trace of UPDATE commands actually
executed, paired with the final outcome (normal return, the `ValueError`
raised by the item check, or the `IndexError` raised by Python list indexing
when `listOfItemToChange`/`listOfNewValue` are shorter than `listID`). -/

inductive SqlOutcome where
  | ok
  | valueError (msg : String)
  | indexError
deriving DecidableEq

/-- One executed `UPDATE BrightStarCatalog<F> SET <column>=<value> WHERE id=?`
command. -/
structure UpdateCmd where
  column : String
  value : Int
  rowId : Int
deriving DecidableEq

/-- The updatable items accepted by `LocalDatabase.updateData`. -/
def allowedUpdateItems : List String :=
  ["simobjid", "ra", "decl", "mag", "bright_star"]

/-- The per-row loop of `LocalDatabase.updateData` over `range(len(listID))`:
`acc` holds the UPDATE commands already executed (most recent first); an
out-of-range index aborts the loop after those commands have run. -/
def updateLoop (cameraFilter : String) (items : List String) (vals : List Int) :
    List (Nat × Int) → List UpdateCmd → List UpdateCmd × SqlOutcome
  | [], acc => (acc.reverse, .ok)
  | (ii, rowId) :: rest, acc =>
    match items.get? ii, vals.get? ii with
    | some item, some v =>
      -- the item "mag" is mapped to the filter-specific magnitude column
      let itemToChange := if item = "mag" then cameraFilter ++ item else item
      updateLoop cameraFilter items vals rest (⟨itemToChange, v, rowId⟩ :: acc)
    | _, _ => (acc.reverse, .indexError)

/-- `LocalDatabase.updateData`: every entry of `listOfItemToChange` is first
checked against the allowed set, raising `ValueError` before any SQL command
is issued; only then are the rows updated one by one. -/
def updateData (cameraFilter : String) (listID : List Int) (items : List String)
    (vals : List Int) : List UpdateCmd × SqlOutcome :=
  match items.find? (fun item => !(allowedUpdateItems.contains item)) with
  | some item => ([], .valueError (item ++ " can not be updated."))
  | none => updateLoop cameraFilter items vals listID.enum []

/-! ## Star-map analysis (`WEPController.__analyzeStarMap`,
`WEPController.getTargetStarByFile`)

The three dictionaries produced by `sourSelc.getTargetStar` are modelled as
association lists with (as for Python dicts) pairwise-distinct keys. -/

/-- The per-detector star information; only the `RA` array is inspected by
`__analyzeStarMap` (the `StarData` class lives in `bsc/StarData.py`, outside
this snapshot, but the spec and the use site fix what is needed: a list of
right ascensions, empty iff no star matched the detector). -/
structure StarInfo where
  RA : List Rat
deriving DecidableEq

/-- Python `dict.pop(key)` on an association list: removes the key, or fails
(`KeyError`) when it is absent. -/
def popKey {β : Type} (m : List (String × β)) (k : String) :
    Option (List (String × β)) :=
  if m.any (fun p => p.1 == k) then some (m.eraseP (fun p => p.1 == k)) else none

/-- The sensors collected by the first loop of `__analyzeStarMap`: those
whose star list has an empty `RA` array. -/
def noStarSensorList (starMap : List (String × StarInfo)) : List String :=
  (starMap.filter (fun p => p.2.RA.length == 0)).map Prod.fst

/-- The second loop of `__analyzeStarMap`: pop each no-star sensor from the
three maps in turn (`none` models the `KeyError` a missing key would
raise). -/
def analyzeStarMapGo {β γ : Type} :
    List String →
    List (String × β) × List (String × StarInfo) × List (String × γ) →
    Option (List (String × β) × List (String × StarInfo) × List (String × γ))
  | [], maps => some maps
  | aKey :: ks, (neighborStarMap, starMap, wavefrontSensors) =>
    match popKey neighborStarMap aKey, popKey starMap aKey,
        popKey wavefrontSensors aKey with
    | some n, some s, some w => analyzeStarMapGo ks (n, s, w)
    | _, _, _ => none

/-- `WEPController.__analyzeStarMap`: remove from all three maps every sensor
without bright stars. -/
def analyzeStarMap {β γ : Type} (neighborStarMap : List (String × β))
    (starMap : List (String × StarInfo)) (wavefrontSensors : List (String × γ)) :
    Option (List (String × β) × List (String × StarInfo) × List (String × γ)) :=
  analyzeStarMapGo (noStarSensorList starMap)
    (neighborStarMap, starMap, wavefrontSensors)

/-- The externally visible database calls issued by `getTargetStarByFile`,
in source order. -/
inductive DbAction where
  | connect
  | createTable
  | insertDataByFile
  | getTargetStar
  | deleteTable
  | disconnect
deriving DecidableEq

/-- `WEPController.getTargetStarByFile`: first check that the source
selector is of the local-database kind (`name != LocalDb` raises `TypeError`
before anything else runs); then connect, create the table, insert the sky
file, query (`sourSelc.getTargetStar`, whose three result maps are the
`query*` parameters here), analyze the star map, delete the table and
disconnect.  The first component records the database actions issued before
returning or failing. -/
def getTargetStarByFile {β γ : Type} (sourSelcName localDb : String)
    (queryNbr : List (String × β)) (queryStar : List (String × StarInfo))
    (queryWfs : List (String × γ)) :
    List DbAction × Except String
      (List (String × β) × List (String × StarInfo) × List (String × γ)) :=
  if sourSelcName ≠ localDb then
    ([], .error "The database type is not LocalDatabaseDecorator.")
  else
    match analyzeStarMap queryNbr queryStar queryWfs with
    | none =>
      ([.connect, .createTable, .insertDataByFile, .getTargetStar],
        .error "KeyError")
    | some r =>
      ([.connect, .createTable, .insertDataByFile, .getTargetStar, .deleteTable,
        .disconnect], .ok r)

/-! ## The local bright-star catalog (`LocalDatabase.searchRaDecl`,
`LocalDatabase.insertData`)

The per-filter table `BrightStarCatalog<F>` is modelled as the list of its
rows; `insertData` appends and commits, `searchRaDecl` filters.  The crucial
asymmetry of the source is kept: rows are inserted through parameter binding
with the exact coordinate values, while `searchRaDecl` builds its `WHERE`
clause with `"ra = %f AND decl = %f"`, whose literals carry only six decimal
places. -/

/-- A row of `BrightStarCatalog<F>` (the `id` primary key is not modelled:
`insertData` only tests emptiness of `searchRaDecl` results). -/
structure CatalogRow where
  simobjid : Int
  ra : Rat
  decl : Rat
  mag : Rat
  bright_star : Bool
deriving DecidableEq

/-- Python `"%f" % x`: format with six decimal places; the literal in the
query denotes the rounded value.  Rounding is to the nearest multiple of
`1/1000000` (the exact tie behaviour of the C library is immaterial to the
claims below; ties are taken upward here). -/
def fmt6 (q : Rat) : Rat :=
  ((⌊q * 1000000 + 1 / 2⌋ : Int) : Rat) / 1000000

/-- `LocalDatabase.searchRaDecl`: returns the rows matching
`WHERE ra = %f AND decl = %f`; the stored values are compared against the
6-decimal literals. -/
def searchRaDecl (table : List CatalogRow) (ra decl : Rat) : List CatalogRow :=
  table.filter (fun r => r.ra == fmt6 ra && r.decl == fmt6 decl)

/-- Modelled from the spec: the `NeighboringStar` container built by the
matcher (defined in `bsc/StarData.py`, outside this snapshot): `SimobjID` is
the insertion-ordered map from each bright-star id to the list of its
neighbor ids; `RaDecl` gives each star id its sky position and `LSSTMag*`
its per-band magnitudes. -/
structure NbrStarMap where
  SimobjID : List (Nat × List Nat)
  RaDecl : Nat → Rat × Rat
  LSSTMagU : Nat → Rat
  LSSTMagG : Nat → Rat
  LSSTMagR : Nat → Rat
  LSSTMagI : Nat → Rat
  LSSTMagZ : Nat → Rat
  LSSTMagY : Nat → Rat

/-- Modelled from the spec: the filter-type constants inherited from
`BrightStarDatabase` (the six bands u, g, r, i, z, y named throughout the
docstrings). -/
def FilterU : String := "u"

def FilterG : String := "g"

def FilterR : String := "r"

def FilterI : String := "i"

def FilterZ : String := "z"

def FilterY : String := "y"

/-- The filter dispatch of `insertData` choosing the magnitude list; with an
unknown filter the Python variable `mag` stays unbound and its use raises
`NameError` (modelled by `none`). -/
def magOf (cameraFilter : String) (nbr : NbrStarMap) (simobjID : Nat) : Option Rat :=
  if cameraFilter = FilterU then some (nbr.LSSTMagU simobjID)
  else if cameraFilter = FilterG then some (nbr.LSSTMagG simobjID)
  else if cameraFilter = FilterR then some (nbr.LSSTMagR simobjID)
  else if cameraFilter = FilterI then some (nbr.LSSTMagI simobjID)
  else if cameraFilter = FilterZ then some (nbr.LSSTMagZ simobjID)
  else if cameraFilter = FilterY then some (nbr.LSSTMagY simobjID)
  else none

/-- `brightStarList = list(neighborStarMap.SimobjID)`: the bright-star ids,
in insertion order. -/
def brightStarList (nbr : NbrStarMap) : List Nat :=
  nbr.SimobjID.map Prod.fst

/-- The first loop of `insertData`: the bright stars whose (ra, decl)
already exist in the catalog table according to `searchRaDecl`. -/
def existIdList (nbr : NbrStarMap) (table : List CatalogRow) : List Nat :=
  (brightStarList nbr).filter
    (fun b => !(searchRaDecl table (nbr.RaDecl b).1 (nbr.RaDecl b).2).isEmpty)

/-- The inner neighbor loop of `insertData`: append each neighbor id not yet
in `allStarList`. -/
def addNeighborStars (allStarList : List Nat) (neighbors : List Nat) : List Nat :=
  neighbors.foldl
    (fun acc starID => if starID ∈ acc then acc else acc ++ [starID]) allStarList

/-- The second loop of `insertData`: build `remainIdList` (new bright stars)
and `allStarList` (new bright stars and their neighbors, deduplicated). -/
def collectGo (exist : List Nat) :
    List (Nat × List Nat) → List Nat → List Nat → List Nat × List Nat
  | [], remainIdList, allStarList => (remainIdList, allStarList)
  | (b, neighbors) :: rest, remainIdList, allStarList =>
    if b ∈ exist then collectGo exist rest remainIdList allStarList
    else collectGo exist rest (remainIdList ++ [b])
      (addNeighborStars (allStarList ++ [b]) neighbors)

def collectStarLists (entries : List (Nat × List Nat)) (exist : List Nat) :
    List Nat × List Nat :=
  collectGo exist entries [] []

/-- The insert loop of `insertData`: one row per id of `allStarList`, with
the filter-specific magnitude and the bright-star flag; `none` models the
`NameError` on an unknown filter. -/
def insertRows (cameraFilter : String) (nbr : NbrStarMap) (remainIdList : List Nat) :
    List Nat → Option (List CatalogRow)
  | [] => some []
  | simobjID :: rest =>
    match magOf cameraFilter nbr simobjID,
        insertRows cameraFilter nbr remainIdList rest with
    | some mag, some rows =>
      some (⟨Int.ofNat simobjID, (nbr.RaDecl simobjID).1, (nbr.RaDecl simobjID).2,
        mag, decide (simobjID ∈ remainIdList)⟩ :: rows)
    | _, _ => none

/-- `LocalDatabase.insertData`: skip every bright star already present by
(ra, decl) together with its neighbors; insert rows for the rest and commit
(append to the table). -/
def insertData (cameraFilter : String) (nbr : NbrStarMap) (table : List CatalogRow) :
    Option (List CatalogRow) :=
  match insertRows cameraFilter nbr
      (collectStarLists nbr.SimobjID (existIdList nbr table)).1
      (collectStarLists nbr.SimobjID (existIdList nbr table)).2 with
  | some rows => some (table ++ rows)
  | none => none

/-- A sky position whose right ascension is `2⁻²⁰`: exactly representable in
the source`s binary floating point, but not within six decimal places. -/
def cNbrMap : NbrStarMap :=
  ⟨[(1, [])], fun _ => (1 / 1048576, 0), fun _ => 0, fun _ => 0, fun _ => 0,
    fun _ => 0, fun _ => 0, fun _ => 0⟩

/-- A neighbor-star map whose coordinates (`ra = 1/2`) survive the 6-decimal
round trip, with one bright star and one neighbor. -/
def wNbrMap : NbrStarMap :=
  ⟨[(1, [2])], fun _ => (1 / 2, 0), fun _ => 0, fun _ => 0, fun _ => 0,
    fun _ => 0, fun _ => 0, fun _ => 0⟩

/-! ## The donut map (`WEPController.getDonutMap`,
`WEPController.__searchDonutListId`)

`sourProc.getSingleTargetImage` and `sourProc.doDeblending` belong to
`SourceProcessor` (outside this snapshot); they enter as the function
parameters `gst` and `dbl`, each taking the sensor name first (the source
configures `sourProc` per sensor).  Images are the type parameter `α`;
pixel positions, which the controller only carries around and adds to the
crop offsets, are modelled as integers.  The per-sensor star ids
`list(neighborStarMap[sensorName].SimobjID.keys())` are the function
`nbrIds`; as keys of a Python dict they are pairwise distinct, though no
proof below needs that. -/

/-- The tuple returned by `sourProc.getSingleTargetImage`: the candidate
cutout together with the positions and magnitude ratios of all stars inside
it, and the crop offset. -/
structure SingleTarget (α : Type) where
  singleSciNeiImg : α
  allStarPosX : List Int
  allStarPosY : List Int
  magRatio : List Rat
  offsetX : Int
  offsetY : Int

/-- Modelled from the spec: `DonutImage` from `wep/DefocalImage.py` (not in
this snapshot): the donut pair of one star on one detector — the star id,
the pixel position on the full frame, and the optional intra- and
extra-focal cutouts. -/
structure DonutImage (α : Type) where
  starId : Nat
  pixelX : Int
  pixelY : Int
  intraImg : Option α
  extraImg : Option α
deriving DecidableEq

/-- Modelled from the spec: `DonutImage.setImg` fills whichever focal role is
supplied, leaving the other role and the star identity/position unchanged. -/
def DonutImage.setImg {α : Type} (d : DonutImage α) (intra extra : Option α) :
    DonutImage α :=
  ⟨d.starId, d.pixelX, d.pixelY,
   match intra with | some i => some i | none => d.intraImg,
   match extra with | some e => some e | none => d.extraImg⟩

/-- `WEPController.__searchDonutListId`, the indexed loop: `index` stays `-1`
when no entry carries the star id. -/
def searchDonutListIdGo {α : Type} (starId : Nat) :
    List (DonutImage α) → Nat → Int
  | [], _ => -1
  | d :: rest, ii =>
    if d.starId == starId then Int.ofNat ii
    else searchDonutListIdGo starId rest (ii + 1)

def searchDonutListId {α : Type} (donutList : List (DonutImage α))
    (starId : Nat) : Int :=
  searchDonutListIdGo starId donutList 0

/-- The deblending branch of `getDonutMap` (lines 428-439): pass the raw
cutout through, with the candidate nominal position, when deblending is off
or exactly one star is present; deblend when exactly two stars are present
and deblending is on; otherwise `imgDeblend` stays `None` and the star is
skipped for this image.  The outer `none` models the `IndexError` that
`allStarPosX[0]` raises on an empty list; the two coordinates in the skip
case are unused. -/
def donutDeblendStep {α : Type}
    (dbl : α → List Int → List Int → List Rat → Option α × Int × Int)
    (doDeblending : Bool) (st : SingleTarget α) : Option (Option α × Int × Int) :=
  if (st.magRatio.length == 1 && doDeblending) || (!doDeblending) then
    match st.allStarPosX, st.allStarPosY with
    | x :: _, y :: _ => some (some st.singleSciNeiImg, x, y)
    | _, _ => none
  else if st.magRatio.length == 2 && doDeblending then
    some (dbl st.singleSciNeiImg st.allStarPosX st.allStarPosY st.magRatio)
  else
    some (none, 0, 0)

/-- `donutList[donutIndex].setImg(...)` (lines 462-467): fill the intra
(`jj = 0`) or extra (`jj = 1`) image of the entry at the searched index.
The index returned by the search is always valid at the call sites; the
fallback arm is unreachable there. -/
def setDonutAt {α : Type} (donutList : List (DonutImage α)) (donutIndex : Int)
    (jj : Nat) (img : α) : List (DonutImage α) :=
  match donutList.get? donutIndex.toNat with
  | some d =>
    donutList.set donutIndex.toNat
      (if jj == 0 then d.setImg (some img) none
       else if jj == 1 then d.setImg none (some img) else d)
  | none => donutList

/-- Lines 447-467: search the donut list for the star id; create the
`DonutImage` (with position `realc + offset`) and search again when it is
absent; then set the focal image of the entry at the found index. -/
def procAddDonut {α : Type} (st : SingleTarget α)
    (donutList : List (DonutImage α)) (starId : Nat) (jj : Nat)
    (imgDeblend : α) (realcx realcy : Int) : List (DonutImage α) :=
  if searchDonutListId donutList starId < 0 then
    setDonutAt
      (donutList ++ [⟨starId, realcx + st.offsetX, realcy + st.offsetY, none, none⟩])
      (searchDonutListId
        (donutList ++ [⟨starId, realcx + st.offsetX, realcy + st.offsetY, none, none⟩])
        starId)
      jj imgDeblend
  else
    setDonutAt donutList (searchDonutListId donutList starId) jj imgDeblend

/-- One inner iteration of `getDonutMap` (star index `ii`, focal pass `jj`):
skip when the defocal image is absent; otherwise cut out the target with
`gstS` (`getSingleTargetImage` for the configured sensor), run the
deblending branch, and when an image survives add it to the donut list under
the star id. -/
def procOnePass {α : Type} (gstS : α → Nat → SingleTarget α)
    (dbl : α → List Int → List Int → List Rat → Option α × Int × Int)
    (doDeblending : Bool) (ccdImg : Option α) (ii starId : Nat) (jj : Nat)
    (donutList : List (DonutImage α)) : Option (List (DonutImage α)) :=
  match ccdImg with
  | none => some donutList
  | some img =>
    match donutDeblendStep dbl doDeblending (gstS img ii) with
    | none => none
    | some (none, _, _) => some donutList
    | some (some imgDeblend, realcx, realcy) =>
      some (procAddDonut (gstS img ii) donutList starId jj imgDeblend realcx realcy)

/-- The two focal passes (`jj in range(2)`) of one star: intra first, then
extra. -/
def processStar {α : Type} (gstS : α → Nat → SingleTarget α)
    (dbl : α → List Int → List Int → List Rat → Option α × Int × Int)
    (doDeblending : Bool) (intraCcd extraCcd : Option α) (ii starId : Nat)
    (donutList : List (DonutImage α)) : Option (List (DonutImage α)) :=
  match procOnePass gstS dbl doDeblending intraCcd ii starId 0 donutList with
  | none => none
  | some l1 => procOnePass gstS dbl doDeblending extraCcd ii starId 1 l1

/-- The star loop (`ii in range(len(simobjIdList))`) over the enumerated id
list. -/
def processStars {α : Type} (gstS : α → Nat → SingleTarget α)
    (dbl : α → List Int → List Int → List Rat → Option α × Int × Int)
    (doDeblending : Bool) (intraCcd extraCcd : Option α) :
    List (Nat × Nat) → List (DonutImage α) → Option (List (DonutImage α))
  | [], donutList => some donutList
  | (ii, starId) :: rest, donutList =>
    match processStar gstS dbl doDeblending intraCcd extraCcd ii starId donutList with
    | none => none
    | some l2 => processStars gstS dbl doDeblending intraCcd extraCcd rest l2

def processSensor {α : Type} (gstS : α → Nat → SingleTarget α)
    (dbl : α → List Int → List Int → List Rat → Option α × Int × Int)
    (doDeblending : Bool) (intraCcd extraCcd : Option α)
    (simobjIdList : List Nat) : Option (List (DonutImage α)) :=
  processStars gstS dbl doDeblending intraCcd extraCcd simobjIdList.enum []

/-- The sensor loop of `getDonutMap`.  A sensor gets its key in the map when
its first donut lands there (`donutMap[sensorName] = []` followed by
appends); this is modelled by appending the pair when the finished list is
nonempty, which yields the same dictionary. -/
def getDonutMapGo {α : Type} (gst : String → α → Nat → SingleTarget α)
    (dbl : String → α → List Int → List Int → List Rat → Option α × Int × Int)
    (nbrIds : String → List Nat) (doDeblending : Bool) :
    List (String × Option α × Option α) → List (String × List (DonutImage α)) →
    Option (List (String × List (DonutImage α)))
  | [], donutMap => some donutMap
  | (sensorName, intraCcd, extraCcd) :: rest, donutMap =>
    match processSensor (gst sensorName) (dbl sensorName) doDeblending
        intraCcd extraCcd (nbrIds sensorName) with
    | none => none
    | some l =>
      getDonutMapGo gst dbl nbrIds doDeblending rest
        (if l.isEmpty then donutMap else donutMap ++ [(sensorName, l)])

/-- `WEPController.getDonutMap`: the donut image map over the sensors of the
post-ISR image map (`wfsImgMap` lists each sensor with its intra and extra
defocal images). -/
def getDonutMap {α : Type} (gst : String → α → Nat → SingleTarget α)
    (dbl : String → α → List Int → List Int → List Rat → Option α × Int × Int)
    (nbrIds : String → List Nat)
    (wfsImgMap : List (String × Option α × Option α)) (doDeblending : Bool) :
    Option (List (String × List (DonutImage α))) :=
  getDonutMapGo gst dbl nbrIds doDeblending wfsImgMap []

/-- A `getSingleTargetImage` stand-in that always reports three stars in the
cutout (magnitude-ratio list of length three). -/
def cGst3 : String → Nat → Nat → SingleTarget Nat :=
  fun _ img _ => ⟨img, [1, 2, 3], [1, 2, 3], [1, 1, 1], 0, 0⟩

/-- A `doDeblending` stand-in returning its input unchanged. -/
def cDbl : String → Nat → List Int → List Int → List Rat → Option Nat × Int × Int :=
  fun _ a _ _ _ => (some a, 0, 0)

/-- A `getSingleTargetImage` stand-in reporting a single star at position
(3, 4) with crop offset (10, 20). -/
def cGst1 : String → Nat → Nat → SingleTarget Nat :=
  fun _ img _ => ⟨img, [3], [4], [1], 10, 20⟩

lemma triple_hash_starts_hash {l : List Char} (h : ['#', '#', '#'].isPrefixOf l = true) :
    ['#'].isPrefixOf l = true := by
  cases l with
  | nil => simp [List.isPrefixOf] at h
  | cons c t =>
    simp [List.isPrefixOf] at h ⊢
    exact h.1

lemma ite_cond_true_bool {β : Sort _} (a b : β) : (if true = true then a else b) = a := rfl

lemma ite_cond_false_bool {β : Sort _} (a b : β) : (if false = true then a else b) = b := rfl

lemma readConfigLines_eq_specConfigEcho (lines : List String) :
    ∀ (n : Nat) (ic : Int), (ic = 0 ∨ ic = -1) → (ic = 0 ↔ n % 2 = 0) →
      readConfigLines lines ic = specConfigEcho lines n := by
  induction lines with
  | nil => intro n ic _ _; rfl
  | cons line rest ih =>
    intro n ic hdom hpar
    by_cases hd : (['#', '#', '#'].isPrefixOf (pyStrip line).toList) = true
    · -- delimiter line: the state toggles; the line itself starts with '#'
      have hh : (['#'].isPrefixOf (pyStrip line).toList) = true := triple_hash_starts_hash hd
      have hstep : readConfigLines (line :: rest) ic = readConfigLines rest (-1 - ic) := by
        simp only [readConfigLines]
        rw [hd, hh]
        simp only [ite_cond_true_bool, Bool.not_true, Bool.false_and, ite_cond_false_bool,
          if_true]
      have hstep2 : specConfigEcho (line :: rest) n = specConfigEcho rest (n + 1) := by
        simp only [specConfigEcho]
        rw [hd, hh]
        simp only [ite_cond_true_bool, Bool.not_true, Bool.false_and, ite_cond_false_bool,
          if_true]
      rw [hstep, hstep2]
      rcases hdom with h0 | h1
      · subst h0
        have hn : n % 2 = 0 := hpar.mp rfl
        refine ih (n + 1) (-1 - 0) (Or.inr (by norm_num)) ?_
        constructor
        · intro h; exfalso; omega
        · intro h; exfalso; omega
      · subst h1
        have hn : ¬ n % 2 = 0 := by
          intro h; have h2 := hpar.mpr h; exact absurd h2 (by norm_num)
        refine ih (n + 1) (-1 - -1) (Or.inl (by norm_num)) ?_
        constructor
        · intro _; omega
        · intro _; norm_num
    · -- ordinary line: the state is unchanged and equals the block parity
      have hd' : (['#', '#', '#'].isPrefixOf (pyStrip line).toList) = false := by
        cases h : (['#', '#', '#'].isPrefixOf (pyStrip line).toList) with
        | false => rfl
        | true => exact absurd h hd
      have hic : (ic == 0) = (n % 2 == 0) := by
        rcases hdom with h | h <;> subst h
        · have hn : n % 2 = 0 := hpar.mp rfl
          rw [hn]
          decide
        · have hn : ¬ n % 2 = 0 := by
            intro h; have h2 := hpar.mpr h; exact absurd h2 (by norm_num)
          have h2 : (n % 2 == 0) = false := by
            cases h3 : (n % 2 == 0) with
            | false => rfl
            | true => exact absurd (by simpa using h3) hn
          rw [h2]
          rfl
      by_cases hk : ((!(['#'].isPrefixOf (pyStrip line).toList)) && (n % 2 == 0)
          && decide ((pyStrip line).length > 0)) = true
      · have h1 : readConfigLines (line :: rest) ic = pyStrip line :: readConfigLines rest ic := by
          simp only [readConfigLines]
          rw [hd']
          simp only [ite_cond_false_bool]
          rw [hic, if_pos hk]
        have h2 : specConfigEcho (line :: rest) n = pyStrip line :: specConfigEcho rest n := by
          simp only [specConfigEcho]
          rw [hd']
          simp only [ite_cond_false_bool]
          rw [if_pos hk]
        rw [h1, h2, ih n ic hdom hpar]
      · have h1 : readConfigLines (line :: rest) ic = readConfigLines rest ic := by
          simp only [readConfigLines]
          rw [hd']
          simp only [ite_cond_false_bool]
          rw [hic, if_neg hk]
        have h2 : specConfigEcho (line :: rest) n = specConfigEcho rest n := by
          simp only [specConfigEcho]
          rw [hd']
          simp only [ite_cond_false_bool]
          rw [if_neg hk]
        rw [h1, h2]; exact ih n ic hdom hpar

lemma wfsMapStep_preserves_roleProp {α : Type} (fileMatch : String → Option α)
    (m : String → Option (DefocalImage α)) (n : String)
    (hm : defocalRoleProp fileMatch m) :
    defocalRoleProp fileMatch (wfsMapStep fileMatch m n) := by
  intro k d hk
  unfold wfsMapStep at hk
  split at hk
  · exact hm k d hk
  · rename_i wfsImg hf
    by_cases hkn : k = n
    · subst hkn
      rw [if_pos rfl] at hk
      injection hk with hk
      subst hk
      constructor
      · intro hA
        rw [if_pos hA, hf]
        exact ⟨rfl, rfl⟩
      · intro hB
        have hAB : ¬ (channelOf k = some 'A') := by
          rw [hB]; intro h; cases h
        rw [if_neg hAB, if_pos hB, hf]
        exact ⟨rfl, rfl⟩
    · rw [if_neg hkn] at hk
      exact hm k d hk

lemma getPostISRDefocalImgMapWfs_fold_inv {α : Type} (fileMatch : String → Option α) :
    ∀ (names : List String) (m0 : String → Option (DefocalImage α)),
      defocalRoleProp fileMatch m0 →
      defocalRoleProp fileMatch (names.foldl (wfsMapStep fileMatch) m0) := by
  intro names
  induction names with
  | nil => intro m0 h; exact h
  | cons n rest ih =>
    intro m0 h
    exact ih (wfsMapStep fileMatch m0 n) (wfsMapStep_preserves_roleProp fileMatch m0 n h)

/-- C7: in the wavefront-directory branch of
`WEPController.getPostISRDefocalImgMap`, a sensor whose channel suffix is `A`
has its matched image stored as the intra-focal image (and its extra-focal
slot left empty), and a channel suffix `B` stores the matched image as the
extra-focal image (and leaves the intra-focal slot empty); `A` never
populates the extra-focal slot and `B` never populates the intra-focal
slot. -/
theorem getPostISRDefocalImgMapWfs_channel_roles {α : Type}
    (fileMatch : String → Option α) (sensorNameList : List String)
    (k : String) (d : DefocalImage α)
    (hmem : getPostISRDefocalImgMapWfs fileMatch sensorNameList k = some d) :
    (channelOf k = some 'A' → d.intraImg = fileMatch k ∧ d.extraImg = none)
    ∧ (channelOf k = some 'B' → d.extraImg = fileMatch k ∧ d.intraImg = none) := by
  have hbase : defocalRoleProp fileMatch (fun _ => (none : Option (DefocalImage α))) := by
    intro k d hk
    cases hk
  exact getPostISRDefocalImgMapWfs_fold_inv fileMatch sensorNameList _ hbase k d hmem

theorem getPostISRDefocalImgMapWfs_channel_roles_witness :
    (channelOf "R:0,0 S:2,2,A" = some 'A' →
        (⟨some 3, none⟩ : DefocalImage Nat).intraImg
            = (fun _ => some 3 : String → Option Nat) "R:0,0 S:2,2,A"
          ∧ (⟨some 3, none⟩ : DefocalImage Nat).extraImg = none)
      ∧ (channelOf "R:0,0 S:2,2,A" = some 'B' →
        (⟨some 3, none⟩ : DefocalImage Nat).extraImg
            = (fun _ => some 3 : String → Option Nat) "R:0,0 S:2,2,A"
          ∧ (⟨some 3, none⟩ : DefocalImage Nat).intraImg = none) :=
  getPostISRDefocalImgMapWfs_channel_roles (fun _ => some 3) ["R:0,0 S:2,2,A"]
    "R:0,0 S:2,2,A" ⟨some 3, none⟩ (by decide)

/-- C6: the claim says `doISR` raises exactly on the strings outside the
canonical detector-name form, but the code accepts two non-canonical
families: the regex class `[A,B]` of `__getSensorInfo` also matches a comma
(so a channel suffix of a bare comma is accepted), and the `$` anchor also
matches just before a trailing newline.  This theorem evaluates the code at
two such inputs: both are rejected by the canonical form yet dispatched
without error. -/
theorem doISR_accepts_nonCanonicalNames :
    isCanonicalSensorName "R:0,0 S:2,2,," = false
      ∧ doISR "R:0,0 S:2,2,," = .ok ("0,0", "2,2")
      ∧ isCanonicalSensorName "R:0,0 S:2,2\n" = false
      ∧ doISR "R:0,0 S:2,2\n" = .ok ("0,0", "2,2") := by
  refine ⟨by decide, by rfl, by decide, by rfl⟩

/-- C8: `__readConfigFile` echoes exactly the stripped nonempty lines that do
not start with `#` (which covers the `###` delimiter lines themselves) and do
not lie inside a `###`-delimited block (an even number of delimiter lines
precedes them), verbatim and in input order.  This holds for every input,
balanced or not. -/
theorem readConfigFile_echoes_key_value_lines (lines : List String) :
    readConfigFile lines = specConfigEcho lines 0 :=
  readConfigLines_eq_specConfigEcho lines 0 0 (Or.inl rfl) (by norm_num)

lemma updateLoop_nil (f : String) (items : List String) (vals : List Int)
    (acc : List UpdateCmd) :
    updateLoop f items vals [] acc = (acc.reverse, .ok) := rfl

lemma updateLoop_cons_some {items : List String} {vals : List Int} {ii : Nat}
    {item : String} {v : Int} (f : String) (rowId : Int)
    (rest : List (Nat × Int)) (acc : List UpdateCmd)
    (hitem : items.get? ii = some item) (hval : vals.get? ii = some v) :
    updateLoop f items vals ((ii, rowId) :: rest) acc
      = updateLoop f items vals rest
          (⟨if item = "mag" then f ++ item else item, v, rowId⟩ :: acc) := by
  conv_lhs => rw [updateLoop]
  rw [hitem, hval]

lemma updateLoop_cons_oob {items : List String} {vals : List Int} {ii : Nat}
    (f : String) (rowId : Int) (rest : List (Nat × Int)) (acc : List UpdateCmd)
    (h : items.get? ii = none ∨ vals.get? ii = none) :
    updateLoop f items vals ((ii, rowId) :: rest) acc = (acc.reverse, .indexError) := by
  conv_lhs => rw [updateLoop]
  rcases h with h | h
  · rw [h]
  · rw [h]
    cases items.get? ii <;> rfl

lemma updateLoop_ne_valueError (f : String) (items : List String) (vals : List Int) :
    ∀ (pairs : List (Nat × Int)) (acc : List UpdateCmd) (msg : String),
      (updateLoop f items vals pairs acc).2 ≠ .valueError msg := by
  intro pairs
  induction pairs with
  | nil => intro acc msg h; rw [updateLoop_nil] at h; cases h
  | cons p rest ih =>
    intro acc msg
    obtain ⟨ii, rowId⟩ := p
    cases h1 : items.get? ii with
    | none =>
      rw [updateLoop_cons_oob f rowId rest acc (Or.inl h1)]
      intro h; cases h
    | some item =>
      cases h2 : vals.get? ii with
      | none =>
        rw [updateLoop_cons_oob f rowId rest acc (Or.inr h2)]
        intro h; cases h
      | some v =>
        rw [updateLoop_cons_some f rowId rest acc h1 h2]
        exact ih _ msg

lemma updateLoop_acc_front (f : String) (items : List String) (vals : List Int) :
    ∀ (pairs : List (Nat × Int)) (acc : List UpdateCmd),
      ∃ tail, (updateLoop f items vals pairs acc).1 = acc.reverse ++ tail := by
  intro pairs
  induction pairs with
  | nil => intro acc; exact ⟨[], by rw [updateLoop_nil, List.append_nil]⟩
  | cons p rest ih =>
    intro acc
    obtain ⟨ii, rowId⟩ := p
    cases h1 : items.get? ii with
    | none =>
      exact ⟨[], by rw [updateLoop_cons_oob f rowId rest acc (Or.inl h1), List.append_nil]⟩
    | some item =>
      cases h2 : vals.get? ii with
      | none =>
        exact ⟨[], by rw [updateLoop_cons_oob f rowId rest acc (Or.inr h2), List.append_nil]⟩
      | some v =>
        obtain ⟨t, ht⟩ := ih (⟨if item = "mag" then f ++ item else item, v, rowId⟩ :: acc)
        refine ⟨(⟨if item = "mag" then f ++ item else item, v, rowId⟩ : UpdateCmd) :: t, ?_⟩
        rw [updateLoop_cons_some f rowId rest acc h1 h2, ht]
        simp

lemma updateLoop_get (f : String) (items : List String) (vals : List Int) :
    ∀ (pairs : List (Nat × Int)) (acc : List UpdateCmd) (k ii : Nat) (rowId : Int)
      (item : String) (v : Int),
      pairs.get? k = some (ii, rowId) →
      (∀ j, j < k → ∀ p, pairs.get? j = some p →
        (items.get? p.1).isSome ∧ (vals.get? p.1).isSome) →
      items.get? ii = some item → vals.get? ii = some v →
      (updateLoop f items vals pairs acc).1.get? (acc.length + k)
        = some ⟨if item = "mag" then f ++ item else item, v, rowId⟩ := by
  intro pairs
  induction pairs with
  | nil => intro acc k ii rowId item v hk; cases hk
  | cons p rest ih =>
    intro acc k ii rowId item v hk hall hitem hval
    obtain ⟨jj, jid⟩ := p
    cases k with
    | zero =>
      -- the head pair is the one being updated
      rw [List.get?_cons_zero] at hk
      injection hk with hk
      rw [hk, updateLoop_cons_some f rowId rest acc hitem hval]
      obtain ⟨t, ht⟩ :=
        updateLoop_acc_front f items vals rest
          (⟨if item = "mag" then f ++ item else item, v, rowId⟩ :: acc)
      rw [ht, List.reverse_cons, List.append_assoc, Nat.add_zero,
        List.get?_append_right (by simp)]
      simp
    | succ k =>
      -- the head pair is processed first, then the induction applies
      rw [List.get?_cons_succ] at hk
      obtain ⟨hji, hjv⟩ := hall 0 (Nat.succ_pos k) (jj, jid) rfl
      obtain ⟨jitem, hjitem⟩ := Option.isSome_iff_exists.mp hji
      obtain ⟨jv, hjval⟩ := Option.isSome_iff_exists.mp hjv
      rw [updateLoop_cons_some f jid rest acc hjitem hjval]
      have hrec := ih (⟨if jitem = "mag" then f ++ jitem else jitem, jv, jid⟩ :: acc)
        k ii rowId item v hk
        (fun j hjk q hq =>
          hall (j + 1) (Nat.succ_lt_succ hjk) q (by rw [List.get?_cons_succ]; exact hq))
        hitem hval
      have hlen : ((⟨if jitem = "mag" then f ++ jitem else jitem, jv, jid⟩ : UpdateCmd)
          :: acc).length + k = acc.length + (k + 1) := by
        simp only [List.length_cons]
        omega
      rw [hlen] at hrec
      exact hrec

/-- C9: `LocalDatabase.updateData` raises `ValueError` exactly when some
entry of `listOfItemToChange` lies outside
{simobjid, ra, decl, mag, bright_star}; in that case it raises before any
UPDATE command is executed (the command trace is empty, so no row is
modified); and when every entry is valid, an entry "mag" at position `ii` is
mapped to the filter-specific column `<filter>mag` in the command executed
for that position. -/
theorem updateData_checks_items_first (f : String) (listID : List Int)
    (items : List String) (vals : List Int) :
    ((∃ item ∈ items, item ∉ allowedUpdateItems) ↔
        ∃ msg, (updateData f listID items vals).2 = .valueError msg)
    ∧ (∀ msg, (updateData f listID items vals).2 = .valueError msg →
        (updateData f listID items vals).1 = [])
    ∧ ((∀ it ∈ items, it ∈ allowedUpdateItems) →
        ∀ ii rowId v, listID.get? ii = some rowId → items.get? ii = some "mag" →
          vals.get? ii = some v →
          (updateData f listID items vals).1.get? ii = some ⟨f ++ "mag", v, rowId⟩) := by
  refine ⟨⟨?_, ?_⟩, ?_, ?_⟩
  · -- an invalid item forces the ValueError branch
    rintro ⟨item, hmem, hnotallowed⟩
    unfold updateData
    cases hf : items.find? (fun it => !(allowedUpdateItems.contains it)) with
    | none =>
      exfalso
      have := List.find?_eq_none.mp hf item hmem
      simp only [Bool.not_eq_true', Bool.not_eq_false] at this
      exact hnotallowed (by simpa [List.contains] using this)
    | some it => exact ⟨it ++ " can not be updated.", rfl⟩
  · -- a ValueError can only come from the item check
    rintro ⟨msg, hmsg⟩
    unfold updateData at hmsg
    cases hf : items.find? (fun it => !(allowedUpdateItems.contains it)) with
    | none =>
      rw [hf] at hmsg
      exact absurd hmsg (updateLoop_ne_valueError f items vals listID.enum [] msg)
    | some it =>
      refine ⟨it, List.mem_of_find?_eq_some hf, ?_⟩
      have := List.find?_some hf
      simp only [Bool.not_eq_true'] at this
      intro hmem
      rw [show (allowedUpdateItems.contains it) = true by
        simpa [List.contains] using hmem] at this
      cases this
  · -- in the error case, no command has been executed
    intro msg hmsg
    unfold updateData at hmsg ⊢
    cases hf : items.find? (fun it => !(allowedUpdateItems.contains it)) with
    | none =>
      rw [hf] at hmsg
      exact absurd hmsg (updateLoop_ne_valueError f items vals listID.enum [] msg)
    | some it => rfl
  · -- in the valid case, "mag" becomes the filter-specific column
    intro hvalid ii rowId v hid hitem hval
    unfold updateData
    cases hf : items.find? (fun it => !(allowedUpdateItems.contains it)) with
    | some it =>
      exfalso
      have hp := List.find?_some hf
      have hm := List.mem_of_find?_eq_some hf
      simp only [Bool.not_eq_true'] at hp
      rw [show (allowedUpdateItems.contains it) = true by
        simpa [List.contains] using hvalid it hm] at hp
      cases hp
    | none =>
      have henum : listID.enum.get? ii = some (ii, rowId) := by
        rw [List.get?_enum, hid]
        rfl
      have hall : ∀ j, j < ii → ∀ p, listID.enum.get? j = some p →
          (items.get? p.1).isSome ∧ (vals.get? p.1).isSome := by
        intro j hj p hp
        rw [List.get?_enum] at hp
        cases hq : listID.get? j with
        | none => rw [hq] at hp; cases hp
        | some a =>
          rw [hq] at hp
          injection hp with hp
          subst hp
          show (items.get? j).isSome ∧ (vals.get? j).isSome
          have hii : ii < items.length := by
            by_contra hc
            rw [List.get?_eq_none.mpr (by omega)] at hitem
            cases hitem
          have hiv : ii < vals.length := by
            by_contra hc
            rw [List.get?_eq_none.mpr (by omega)] at hval
            cases hval
          constructor
          · rw [Option.isSome_iff_ne_none]
            intro hnone
            rw [List.get?_eq_none] at hnone
            omega
          · rw [Option.isSome_iff_ne_none]
            intro hnone
            rw [List.get?_eq_none] at hnone
            omega
      have := updateLoop_get f items vals listID.enum [] ii ii rowId "mag" v
        henum hall hitem hval
      simpa using this

theorem updateData_checks_items_first_witness :
    (∃ msg, (updateData "g" [7] ["foo"] [5]).2 = .valueError msg)
      ∧ (updateData "g" [7] ["mag"] [5]).1.get? 0 = some ⟨"gmag", 5, 7⟩ :=
  ⟨(updateData_checks_items_first "g" [7] ["foo"] [5]).1.mp
      ⟨"foo", by decide, by decide⟩,
    (updateData_checks_items_first "g" [7] ["mag"] [5]).2.2 (by decide) 0 7 5 rfl rfl rfl⟩

lemma mem_eraseP_key {β : Type} :
    ∀ {m : List (String × β)}, (m.map Prod.fst).Nodup → ∀ (k : String) (p : String × β),
      p ∈ m.eraseP (fun q => q.1 == k) ↔ p ∈ m ∧ p.1 ≠ k := by
  intro m
  induction m with
  | nil => intro _ k p; simp [List.eraseP]
  | cons q rest ih =>
    intro hnod k p
    have hnodtail : (rest.map Prod.fst).Nodup := (List.nodup_cons.mp hnod).2
    have hqnotin : q.1 ∉ rest.map Prod.fst := (List.nodup_cons.mp hnod).1
    cases hq : (q.1 == k) with
    | true =>
      have hqk : q.1 = k := by simpa using hq
      simp only [List.eraseP_cons, hq, cond_true]
      constructor
      · intro hp
        refine ⟨List.mem_cons_of_mem q hp, ?_⟩
        intro hpk
        exact hqnotin (by
          rw [hqk, ← hpk]
          exact List.mem_map_of_mem Prod.fst hp)
      · rintro ⟨hp, hpk⟩
        rcases List.mem_cons.mp hp with h | h
        · exact absurd (by rw [h, hqk]) hpk
        · exact h
    | false =>
      have hqk : q.1 ≠ k := by simpa using hq
      simp only [List.eraseP_cons, hq, cond_false]
      constructor
      · intro hp
        rcases List.mem_cons.mp hp with h | h
        · exact ⟨by rw [h]; exact List.mem_cons_self q rest, by rw [h]; exact hqk⟩
        · have := (ih hnodtail k p).mp h
          exact ⟨List.mem_cons_of_mem q this.1, this.2⟩
      · rintro ⟨hp, hpk⟩
        rcases List.mem_cons.mp hp with h | h
        · rw [h]; exact List.mem_cons_self q _
        · exact List.mem_cons_of_mem q ((ih hnodtail k p).mpr ⟨h, hpk⟩)

lemma popKey_eq_some {β : Type} {m : List (String × β)} {k : String}
    (hk : k ∈ m.map Prod.fst) :
    popKey m k = some (m.eraseP (fun q => q.1 == k)) := by
  unfold popKey
  rw [if_pos]
  rw [List.any_eq_true]
  obtain ⟨p, hp, hpk⟩ := List.mem_map.mp hk
  exact ⟨p, hp, by simpa using hpk⟩

lemma eraseP_key_nodup {β : Type} {m : List (String × β)}
    (hnod : (m.map Prod.fst).Nodup) (k : String) :
    ((m.eraseP (fun q => q.1 == k)).map Prod.fst).Nodup :=
  hnod.sublist ((List.eraseP_sublist m).map Prod.fst)

lemma analyzeStarMapGo_spec {β γ : Type} :
    ∀ (ks : List String) (n : List (String × β)) (s : List (String × StarInfo))
      (w : List (String × γ)),
      (n.map Prod.fst).Nodup → (s.map Prod.fst).Nodup → (w.map Prod.fst).Nodup →
      ks.Nodup →
      (∀ k ∈ ks, k ∈ n.map Prod.fst ∧ k ∈ s.map Prod.fst ∧ k ∈ w.map Prod.fst) →
      ∃ n2 s2 w2, analyzeStarMapGo ks (n, s, w) = some (n2, s2, w2)
        ∧ (∀ p, p ∈ n2 ↔ p ∈ n ∧ p.1 ∉ ks)
        ∧ (∀ p, p ∈ s2 ↔ p ∈ s ∧ p.1 ∉ ks)
        ∧ (∀ p, p ∈ w2 ↔ p ∈ w ∧ p.1 ∉ ks) := by
  intro ks
  induction ks with
  | nil =>
    intro n s w _ _ _ _ _
    exact ⟨n, s, w, rfl, by simp, by simp, by simp⟩
  | cons k ks ih =>
    intro n s w hn hs hw hnodks hin
    obtain ⟨hkn, hks, hkw⟩ := hin k (List.mem_cons_self k ks)
    have hstep : analyzeStarMapGo (k :: ks) (n, s, w)
        = analyzeStarMapGo ks (n.eraseP (fun q => q.1 == k),
            s.eraseP (fun q => q.1 == k), w.eraseP (fun q => q.1 == k)) := by
      conv_lhs => rw [analyzeStarMapGo]
      rw [popKey_eq_some hkn, popKey_eq_some hks, popKey_eq_some hkw]
    have hknotks : k ∉ ks := (List.nodup_cons.mp hnodks).1
    have htail :
        ∀ k2 ∈ ks, k2 ∈ (n.eraseP (fun q => q.1 == k)).map Prod.fst
          ∧ k2 ∈ (s.eraseP (fun q => q.1 == k)).map Prod.fst
          ∧ k2 ∈ (w.eraseP (fun q => q.1 == k)).map Prod.fst := by
      intro k2 hk2
      have hk2ne : k2 ≠ k := fun h => hknotks (h ▸ hk2)
      obtain ⟨h1, h2, h3⟩ := hin k2 (List.mem_cons_of_mem k hk2)
      refine ⟨?_, ?_, ?_⟩
      · obtain ⟨p, hp, hpk⟩ := List.mem_map.mp h1
        exact List.mem_map.mpr ⟨p, (mem_eraseP_key hn k p).mpr ⟨hp, hpk ▸ hk2ne⟩, hpk⟩
      · obtain ⟨p, hp, hpk⟩ := List.mem_map.mp h2
        exact List.mem_map.mpr ⟨p, (mem_eraseP_key hs k p).mpr ⟨hp, hpk ▸ hk2ne⟩, hpk⟩
      · obtain ⟨p, hp, hpk⟩ := List.mem_map.mp h3
        exact List.mem_map.mpr ⟨p, (mem_eraseP_key hw k p).mpr ⟨hp, hpk ▸ hk2ne⟩, hpk⟩
    obtain ⟨n2, s2, w2, hgo, hmn, hms, hmw⟩ :=
      ih (n.eraseP (fun q => q.1 == k)) (s.eraseP (fun q => q.1 == k))
        (w.eraseP (fun q => q.1 == k))
        (eraseP_key_nodup hn k) (eraseP_key_nodup hs k) (eraseP_key_nodup hw k)
        (List.nodup_cons.mp hnodks).2 htail
    refine ⟨n2, s2, w2, by rw [hstep]; exact hgo, ?_, ?_, ?_⟩
    · intro p
      rw [hmn p, mem_eraseP_key hn k p]
      simp only [List.mem_cons]
      constructor
      · rintro ⟨⟨hp, hne⟩, hnotks⟩
        exact ⟨hp, by rintro (h | h); exact hne h; exact hnotks h⟩
      · rintro ⟨hp, hnot⟩
        exact ⟨⟨hp, fun h => hnot (Or.inl h)⟩, fun h => hnot (Or.inr h)⟩
    · intro p
      rw [hms p, mem_eraseP_key hs k p]
      simp only [List.mem_cons]
      constructor
      · rintro ⟨⟨hp, hne⟩, hnotks⟩
        exact ⟨hp, by rintro (h | h); exact hne h; exact hnotks h⟩
      · rintro ⟨hp, hnot⟩
        exact ⟨⟨hp, fun h => hnot (Or.inl h)⟩, fun h => hnot (Or.inr h)⟩
    · intro p
      rw [hmw p, mem_eraseP_key hw k p]
      simp only [List.mem_cons]
      constructor
      · rintro ⟨⟨hp, hne⟩, hnotks⟩
        exact ⟨hp, by rintro (h | h); exact hne h; exact hnotks h⟩
      · rintro ⟨hp, hnot⟩
        exact ⟨⟨hp, fun h => hnot (Or.inl h)⟩, fun h => hnot (Or.inr h)⟩

lemma mem_noStarSensorList {starMap : List (String × StarInfo)} {k : String} :
    k ∈ noStarSensorList starMap ↔ ∃ info, (k, info) ∈ starMap ∧ info.RA = [] := by
  unfold noStarSensorList
  rw [List.mem_map]
  constructor
  · rintro ⟨p, hp, hpk⟩
    have hmem := List.mem_filter.mp hp
    refine ⟨p.2, ?_, ?_⟩
    · rw [← hpk]
      exact hmem.1
    · have := hmem.2
      simp only [beq_iff_eq] at this
      exact List.length_eq_zero.mp this
  · rintro ⟨info, hmem, hra⟩
    refine ⟨(k, info), List.mem_filter.mpr ⟨hmem, ?_⟩, rfl⟩
    simp [hra]

lemma noStarSensorList_nodup {starMap : List (String × StarInfo)}
    (h : (starMap.map Prod.fst).Nodup) : (noStarSensorList starMap).Nodup :=
  h.sublist ((List.filter_sublist starMap).map Prod.fst)

/-- C5: when the configured source selector is not of the local-database
kind, `getTargetStarByFile` raises `TypeError` at once: no database
connection, table creation, data insertion or star matching happens (the
action trace is empty, so the pre-call state is untouched). -/
theorem getTargetStarByFile_requires_localDb {β γ : Type} (name localDb : String)
    (queryNbr : List (String × β)) (queryStar : List (String × StarInfo))
    (queryWfs : List (String × γ)) (hne : name ≠ localDb) :
    getTargetStarByFile name localDb queryNbr queryStar queryWfs
      = ([], .error "The database type is not LocalDatabaseDecorator.") := by
  unfold getTargetStarByFile
  rw [if_pos hne]

theorem getTargetStarByFile_requires_localDb_witness :
    getTargetStarByFile "File" "LocalDb" ([] : List (String × Nat))
        ([] : List (String × StarInfo)) ([] : List (String × Nat))
      = ([], .error "The database type is not LocalDatabaseDecorator.") :=
  getTargetStarByFile_requires_localDb "File" "LocalDb" [] [] [] (by decide)

/-- C2: when the selector is of the local kind and the three query maps are
dictionaries over the same detector set, `getTargetStarByFile` succeeds and
every detector whose candidate star list is empty has been removed from all
three returned maps, while every detector key remaining in any returned map
has a non-empty star list. -/
theorem getTargetStarByFile_drops_empty_detectors {β γ : Type}
    (name localDb : String) (queryNbr : List (String × β))
    (queryStar : List (String × StarInfo)) (queryWfs : List (String × γ))
    (hname : name = localDb)
    (hn : (queryNbr.map Prod.fst).Nodup) (hs : (queryStar.map Prod.fst).Nodup)
    (hw : (queryWfs.map Prod.fst).Nodup)
    (hns : ∀ k ∈ queryNbr.map Prod.fst, k ∈ queryStar.map Prod.fst)
    (hsn : ∀ k ∈ queryStar.map Prod.fst, k ∈ queryNbr.map Prod.fst)
    (hws : ∀ k ∈ queryWfs.map Prod.fst, k ∈ queryStar.map Prod.fst)
    (hsw : ∀ k ∈ queryStar.map Prod.fst, k ∈ queryWfs.map Prod.fst) :
    ∃ n2 s2 w2,
      getTargetStarByFile name localDb queryNbr queryStar queryWfs
        = ([.connect, .createTable, .insertDataByFile, .getTargetStar,
            .deleteTable, .disconnect], .ok (n2, s2, w2))
      ∧ (∀ k info, (k, info) ∈ queryStar → info.RA = [] →
          k ∉ n2.map Prod.fst ∧ k ∉ s2.map Prod.fst ∧ k ∉ w2.map Prod.fst)
      ∧ (∀ k, (k ∈ n2.map Prod.fst ∨ k ∈ s2.map Prod.fst ∨ k ∈ w2.map Prod.fst) →
          ∃ info, (k, info) ∈ s2 ∧ info.RA ≠ []) := by
  have hkeys : ∀ k ∈ noStarSensorList queryStar,
      k ∈ queryNbr.map Prod.fst ∧ k ∈ queryStar.map Prod.fst
        ∧ k ∈ queryWfs.map Prod.fst := by
    intro k hk
    obtain ⟨info, hmem, _⟩ := mem_noStarSensorList.mp hk
    have hks : k ∈ queryStar.map Prod.fst := List.mem_map.mpr ⟨(k, info), hmem, rfl⟩
    exact ⟨hsn k hks, hks, hsw k hks⟩
  obtain ⟨n2, s2, w2, hgo, hmn, hms, hmw⟩ :=
    analyzeStarMapGo_spec (noStarSensorList queryStar) queryNbr queryStar queryWfs
      hn hs hw (noStarSensorList_nodup hs) hkeys
  refine ⟨n2, s2, w2, ?_, ?_, ?_⟩
  · unfold getTargetStarByFile
    rw [if_neg (by rw [hname]; exact fun h => h rfl)]
    unfold analyzeStarMap
    rw [hgo]
  · intro k info hmem hra
    have hkno : k ∈ noStarSensorList queryStar :=
      mem_noStarSensorList.mpr ⟨info, hmem, hra⟩
    refine ⟨?_, ?_, ?_⟩
    · intro hcon
      obtain ⟨p, hp, hpk⟩ := List.mem_map.mp hcon
      exact ((hmn p).mp hp).2 (hpk ▸ hkno)
    · intro hcon
      obtain ⟨p, hp, hpk⟩ := List.mem_map.mp hcon
      exact ((hms p).mp hp).2 (hpk ▸ hkno)
    · intro hcon
      obtain ⟨p, hp, hpk⟩ := List.mem_map.mp hcon
      exact ((hmw p).mp hp).2 (hpk ▸ hkno)
  · intro k hmem
    -- reduce all three cases to: k is a key of queryStar and not dropped
    have hsk : k ∈ queryStar.map Prod.fst ∧ k ∉ noStarSensorList queryStar := by
      rcases hmem with h | h | h
      · obtain ⟨p, hp, hpk⟩ := List.mem_map.mp h
        obtain ⟨hin, hnot⟩ := (hmn p).mp hp
        exact ⟨hns k (hpk ▸ List.mem_map.mpr ⟨p, hin, rfl⟩), hpk ▸ hnot⟩
      · obtain ⟨p, hp, hpk⟩ := List.mem_map.mp h
        obtain ⟨hin, hnot⟩ := (hms p).mp hp
        exact ⟨hpk ▸ List.mem_map.mpr ⟨p, hin, rfl⟩, hpk ▸ hnot⟩
      · obtain ⟨p, hp, hpk⟩ := List.mem_map.mp h
        obtain ⟨hin, hnot⟩ := (hmw p).mp hp
        exact ⟨hws k (hpk ▸ List.mem_map.mpr ⟨p, hin, rfl⟩), hpk ▸ hnot⟩
    obtain ⟨hks, hnot⟩ := hsk
    obtain ⟨p, hp, hpk⟩ := List.mem_map.mp hks
    refine ⟨p.2, ?_, ?_⟩
    · have : p ∈ s2 := (hms p).mpr ⟨hp, hpk ▸ hnot⟩
      have hpair : p = (k, p.2) := by
        rw [← hpk]
      rw [← hpair]
      exact this
    · intro hra
      exact hnot (mem_noStarSensorList.mpr ⟨p.2, by rw [← hpk]; exact (by
        have hpair : (p.1, p.2) = p := rfl
        rw [hpair]; exact hp), hra⟩)

theorem getTargetStarByFile_drops_empty_detectors_witness :
    ∃ n2 s2 w2,
      getTargetStarByFile "LocalDb" "LocalDb"
          [("R:2,2 S:1,1", (0 : Nat)), ("R:0,0 S:2,2", 0)]
          [("R:2,2 S:1,1", ⟨[1]⟩), ("R:0,0 S:2,2", ⟨[]⟩)]
          [("R:2,2 S:1,1", (0 : Nat)), ("R:0,0 S:2,2", 0)]
        = ([.connect, .createTable, .insertDataByFile, .getTargetStar,
            .deleteTable, .disconnect], .ok (n2, s2, w2))
      ∧ (∀ k info, (k, info) ∈ [("R:2,2 S:1,1", (⟨[1]⟩ : StarInfo)),
            ("R:0,0 S:2,2", ⟨[]⟩)] → info.RA = [] →
          k ∉ n2.map Prod.fst ∧ k ∉ s2.map Prod.fst ∧ k ∉ w2.map Prod.fst)
      ∧ (∀ k, (k ∈ n2.map Prod.fst ∨ k ∈ s2.map Prod.fst ∨ k ∈ w2.map Prod.fst) →
          ∃ info, (k, info) ∈ s2 ∧ info.RA ≠ []) :=
  getTargetStarByFile_drops_empty_detectors "LocalDb" "LocalDb"
    [("R:2,2 S:1,1", (0 : Nat)), ("R:0,0 S:2,2", 0)]
    [("R:2,2 S:1,1", ⟨[1]⟩), ("R:0,0 S:2,2", ⟨[]⟩)]
    [("R:2,2 S:1,1", (0 : Nat)), ("R:0,0 S:2,2", 0)]
    rfl (by decide) (by decide) (by decide) (by decide) (by decide) (by decide)
    (by decide)

lemma addNeighborStars_cons (allStarList : List Nat) (n : Nat) (rest : List Nat) :
    addNeighborStars allStarList (n :: rest)
      = addNeighborStars (if n ∈ allStarList then allStarList else allStarList ++ [n])
          rest := rfl

lemma subset_addNeighborStars :
    ∀ (neighbors allStarList : List Nat), allStarList ⊆ addNeighborStars allStarList neighbors := by
  intro neighbors
  induction neighbors with
  | nil => intro l; exact fun x h => h
  | cons n rest ih =>
    intro l x hx
    rw [addNeighborStars_cons]
    refine ih _ ?_
    split
    · exact hx
    · exact List.mem_append_left _ hx

lemma collectGo_cons_skip {exist : List Nat} {b : Nat} (hb : b ∈ exist)
    (neighbors : List Nat) (rest : List (Nat × List Nat)) (rem all : List Nat) :
    collectGo exist ((b, neighbors) :: rest) rem all = collectGo exist rest rem all := by
  conv_lhs => rw [collectGo]
  rw [if_pos hb]

lemma collectGo_cons_keep {exist : List Nat} {b : Nat} (hb : b ∉ exist)
    (neighbors : List Nat) (rest : List (Nat × List Nat)) (rem all : List Nat) :
    collectGo exist ((b, neighbors) :: rest) rem all
      = collectGo exist rest (rem ++ [b]) (addNeighborStars (all ++ [b]) neighbors) := by
  conv_lhs => rw [collectGo]
  rw [if_neg hb]

lemma collectGo_all_superset (exist : List Nat) :
    ∀ (entries : List (Nat × List Nat)) (rem all : List Nat),
      all ⊆ (collectGo exist entries rem all).2 := by
  intro entries
  induction entries with
  | nil => intro rem all; exact fun x h => h
  | cons p rest ih =>
    intro rem all x hx
    obtain ⟨b, neighbors⟩ := p
    by_cases hb : b ∈ exist
    · rw [collectGo_cons_skip hb]
      exact ih rem all hx
    · rw [collectGo_cons_keep hb]
      exact ih _ _ (subset_addNeighborStars neighbors _ (List.mem_append_left _ hx))

lemma collectGo_mem_all (exist : List Nat) :
    ∀ (entries : List (Nat × List Nat)) (rem all : List Nat) (b : Nat)
      (neighbors : List Nat), (b, neighbors) ∈ entries → b ∉ exist →
      b ∈ (collectGo exist entries rem all).2 := by
  intro entries
  induction entries with
  | nil => intro rem all b neighbors hmem; cases hmem
  | cons p rest ih =>
    intro rem all b neighbors hmem hb
    obtain ⟨b2, n2⟩ := p
    rcases List.mem_cons.mp hmem with h | h
    · injection h with h1 h2
      subst h1; subst h2
      rw [collectGo_cons_keep hb]
      exact collectGo_all_superset exist rest _ _
        (subset_addNeighborStars neighbors _ (List.mem_append_right _ (by simp)))
    · by_cases hb2 : b2 ∈ exist
      · rw [collectGo_cons_skip hb2]
        exact ih rem all b neighbors h hb
      · rw [collectGo_cons_keep hb2]
        exact ih _ _ b neighbors h hb

lemma collectGo_skip_all (exist : List Nat) :
    ∀ (entries : List (Nat × List Nat)) (rem all : List Nat),
      (∀ p ∈ entries, p.1 ∈ exist) → collectGo exist entries rem all = (rem, all) := by
  intro entries
  induction entries with
  | nil => intro rem all _; rfl
  | cons p rest ih =>
    intro rem all hall
    obtain ⟨b, neighbors⟩ := p
    rw [collectGo_cons_skip (hall (b, neighbors) (List.mem_cons_self _ _))]
    exact ih rem all (fun q hq => hall q (List.mem_cons_of_mem _ hq))

lemma insertRows_cons (cameraFilter : String) (nbr : NbrStarMap)
    (remainIdList : List Nat) (simobjID : Nat) (rest : List Nat) :
    insertRows cameraFilter nbr remainIdList (simobjID :: rest)
      = match magOf cameraFilter nbr simobjID,
            insertRows cameraFilter nbr remainIdList rest with
        | some mag, some rows =>
          some (⟨Int.ofNat simobjID, (nbr.RaDecl simobjID).1, (nbr.RaDecl simobjID).2,
            mag, decide (simobjID ∈ remainIdList)⟩ :: rows)
        | _, _ => none := by
  conv_lhs => rw [insertRows]

lemma insertRows_mem (cameraFilter : String) (nbr : NbrStarMap)
    (remainIdList : List Nat) :
    ∀ (ids : List Nat) (rows : List CatalogRow),
      insertRows cameraFilter nbr remainIdList ids = some rows →
      ∀ b ∈ ids, ∃ mag,
        (⟨Int.ofNat b, (nbr.RaDecl b).1, (nbr.RaDecl b).2, mag,
          decide (b ∈ remainIdList)⟩ : CatalogRow) ∈ rows := by
  intro ids
  induction ids with
  | nil => intro rows _ b hb; cases hb
  | cons simobjID rest ih =>
    intro rows hrows b hb
    rw [insertRows_cons] at hrows
    cases hm : magOf cameraFilter nbr simobjID with
    | none => rw [hm] at hrows; cases hrows
    | some mag =>
      cases hr : insertRows cameraFilter nbr remainIdList rest with
      | none => rw [hm, hr] at hrows; cases hrows
      | some rows2 =>
        rw [hm, hr] at hrows
        have hrows2 : (⟨Int.ofNat simobjID, (nbr.RaDecl simobjID).1,
            (nbr.RaDecl simobjID).2, mag,
            decide (simobjID ∈ remainIdList)⟩ : CatalogRow) :: rows2 = rows := by
          injection hrows
        rcases List.mem_cons.mp hb with h | h
        · subst h
          exact ⟨mag, by rw [← hrows2]; exact List.mem_cons_self _ _⟩
        · obtain ⟨mag2, hmem⟩ := ih rows2 hr b h
          exact ⟨mag2, by rw [← hrows2]; exact List.mem_cons_of_mem _ hmem⟩

lemma searchRaDecl_isEmpty_false {table : List CatalogRow} {r : CatalogRow}
    {ra decl : Rat} (hr : r ∈ table) (hra : r.ra = fmt6 ra) (hdecl : r.decl = fmt6 decl) :
    (searchRaDecl table ra decl).isEmpty = false := by
  have hmem : r ∈ searchRaDecl table ra decl := by
    unfold searchRaDecl
    refine List.mem_filter.mpr ⟨hr, ?_⟩
    rw [hra, hdecl]
    simp
  cases hsearch : searchRaDecl table ra decl with
  | nil => rw [hsearch] at hmem; cases hmem
  | cons a l => rfl

lemma fmt6_pow2_val : fmt6 ((1 : ℚ) / 1048576) = 1 / 1000000 := by
  unfold fmt6
  rw [show (⌊(1 : ℚ) / 1048576 * 1000000 + 1 / 2⌋ : ℤ) = 1 from by
    rw [Int.floor_eq_iff]
    constructor <;> norm_num]
  norm_num

lemma fmt6_half_val : fmt6 ((1 : ℚ) / 2) = 1 / 2 := by
  unfold fmt6
  rw [show (⌊(1 : ℚ) / 2 * 1000000 + 1 / 2⌋ : ℤ) = 500000 from by
    rw [Int.floor_eq_iff]
    constructor <;> norm_num]
  norm_num

lemma fmt6_zero_val : fmt6 (0 : ℚ) = 0 := by
  unfold fmt6
  rw [show (⌊(0 : ℚ) * 1000000 + 1 / 2⌋ : ℤ) = 0 from by
    rw [Int.floor_eq_iff]
    constructor <;> norm_num]
  norm_num

lemma searchRaDecl_cex :
    searchRaDecl [⟨Int.ofNat 1, 1 / 1048576, 0, 0, true⟩] ((1 : ℚ) / 1048576) 0
      = [] := by
  have hpred : ((⟨Int.ofNat 1, 1 / 1048576, 0, 0, true⟩ : CatalogRow).ra
        == fmt6 ((1 : ℚ) / 1048576)
      && (⟨Int.ofNat 1, 1 / 1048576, 0, 0, true⟩ : CatalogRow).decl == fmt6 0)
        = false := by
    rw [show ((⟨Int.ofNat 1, 1 / 1048576, 0, 0, true⟩ : CatalogRow).ra
        == fmt6 ((1 : ℚ) / 1048576)) = false from by
      rw [beq_eq_false_iff_ne, fmt6_pow2_val]
      norm_num]
    rfl
  unfold searchRaDecl
  rw [List.filter_cons, hpred]
  rfl

lemma existIdList_cex :
    existIdList cNbrMap [⟨Int.ofNat 1, 1 / 1048576, 0, 0, true⟩] = [] := by
  have hcond : (!(searchRaDecl [⟨Int.ofNat 1, 1 / 1048576, 0, 0, true⟩]
      (cNbrMap.RaDecl 1).1 (cNbrMap.RaDecl 1).2).isEmpty) = false := by
    rw [show (cNbrMap.RaDecl 1).1 = (1 : ℚ) / 1048576 from rfl,
      show (cNbrMap.RaDecl 1).2 = (0 : ℚ) from rfl, searchRaDecl_cex]
    rfl
  show List.filter
    (fun b => !(searchRaDecl [⟨Int.ofNat 1, 1 / 1048576, 0, 0, true⟩]
      (cNbrMap.RaDecl b).1 (cNbrMap.RaDecl b).2).isEmpty) [1] = []
  rw [List.filter_cons, hcond]
  rfl

/-- C10 counterexample: with a single bright star at right ascension `2⁻²⁰`
(exactly representable in the source binary floating point, but not within
six decimal places) and no neighbors, a second `insertData` call with the
same arguments re-inserts the star: `searchRaDecl` compares the stored exact
value against the `%f`-rounded literal `0.000001` and finds nothing.  After
the first call the table has one row; after the second it has two. -/
theorem insertData_not_idempotent_cex :
    (insertData "g" cNbrMap []).map List.length = some 1
      ∧ ((insertData "g" cNbrMap []).bind (insertData "g" cNbrMap)).map List.length
          = some 2 := by
  have h1 : insertData "g" cNbrMap []
      = some [⟨Int.ofNat 1, 1 / 1048576, 0, 0, true⟩] := rfl
  have h2 : insertData "g" cNbrMap [⟨Int.ofNat 1, 1 / 1048576, 0, 0, true⟩]
      = some [⟨Int.ofNat 1, 1 / 1048576, 0, 0, true⟩,
          ⟨Int.ofNat 1, 1 / 1048576, 0, 0, true⟩] := by
    unfold insertData
    rw [existIdList_cex]
    rfl
  refine ⟨by rw [h1]; rfl, ?_⟩
  rw [h1]
  show (insertData "g" cNbrMap [⟨Int.ofNat 1, 1 / 1048576, 0, 0, true⟩]).map
    List.length = some 2
  rw [h2]
  rfl

/-- C10 (amended): `insertData` is idempotent for every neighbor-star map
whose bright-star coordinates survive the 6-decimal `%f` round trip of
`searchRaDecl` (in particular for every coordinate with at most six decimal
places); without that proviso the second call can re-insert rows, as the
counterexample shows. -/
theorem insertData_idempotent_of_fmt6_roundtrip (cameraFilter : String)
    (nbr : NbrStarMap) (table t1 : List CatalogRow)
    (hrt : ∀ p ∈ nbr.SimobjID, fmt6 (nbr.RaDecl p.1).1 = (nbr.RaDecl p.1).1
      ∧ fmt6 (nbr.RaDecl p.1).2 = (nbr.RaDecl p.1).2)
    (h1 : insertData cameraFilter nbr table = some t1) :
    insertData cameraFilter nbr t1 = some t1 := by
  unfold insertData at h1
  cases hrows : insertRows cameraFilter nbr
      (collectStarLists nbr.SimobjID (existIdList nbr table)).1
      (collectStarLists nbr.SimobjID (existIdList nbr table)).2 with
  | none => rw [hrows] at h1; cases h1
  | some rows =>
    rw [hrows] at h1
    have ht1 : table ++ rows = t1 := by injection h1
    -- in the second call, every bright star is found by searchRaDecl
    have hexist : existIdList nbr t1 = brightStarList nbr := by
      unfold existIdList
      refine List.filter_eq_self.mpr ?_
      intro b hb
      obtain ⟨p, hp, hpb⟩ := List.mem_map.mp hb
      obtain ⟨hra, hdecl⟩ := hrt p hp
      rw [hpb] at hra hdecl
      have hempty : (searchRaDecl t1 (nbr.RaDecl b).1 (nbr.RaDecl b).2).isEmpty
          = false := by
        by_cases hbex : b ∈ existIdList nbr table
        · -- a matching row was already in the table before the first call
          unfold existIdList at hbex
          have hpred := (List.mem_filter.mp hbex).2
          have hfalse : (searchRaDecl table (nbr.RaDecl b).1
              (nbr.RaDecl b).2).isEmpty = false := by
            cases hx : (searchRaDecl table (nbr.RaDecl b).1 (nbr.RaDecl b).2).isEmpty
            · rfl
            · rw [hx] at hpred; cases hpred
          obtain ⟨r, hrmem⟩ :=
            List.exists_mem_of_ne_nil _ (List.isEmpty_eq_false.mp hfalse)
          unfold searchRaDecl at hrmem
          have hrfilter := List.mem_filter.mp hrmem
          have hab := hrfilter.2
          rw [Bool.and_eq_true] at hab
          have hra2 : r.ra = fmt6 (nbr.RaDecl b).1 := by simpa using hab.1
          have hdecl2 : r.decl = fmt6 (nbr.RaDecl b).2 := by simpa using hab.2
          have hrt1 : r ∈ t1 := by
            rw [← ht1]; exact List.mem_append_left rows hrfilter.1
          exact searchRaDecl_isEmpty_false hrt1 hra2 hdecl2
        · -- the first call inserted a row with the exact coordinates
          have hpentry : (b, p.2) ∈ nbr.SimobjID := by
            have hpp : p = (b, p.2) := by rw [← hpb]
            rw [← hpp]; exact hp
          have hmemall : b ∈ (collectStarLists nbr.SimobjID
              (existIdList nbr table)).2 := by
            unfold collectStarLists
            exact collectGo_mem_all _ nbr.SimobjID [] [] b p.2 hpentry hbex
          obtain ⟨mag, hrowmem⟩ :=
            insertRows_mem cameraFilter nbr _ _ rows hrows b hmemall
          have hrt1 : (⟨Int.ofNat b, (nbr.RaDecl b).1, (nbr.RaDecl b).2, mag,
              decide (b ∈ (collectStarLists nbr.SimobjID
                (existIdList nbr table)).1)⟩ : CatalogRow) ∈ t1 := by
            rw [← ht1]; exact List.mem_append_right table hrowmem
          exact searchRaDecl_isEmpty_false hrt1 hra.symm hdecl.symm
      rw [hempty]
      rfl
    have hcollect : collectStarLists nbr.SimobjID (existIdList nbr t1) = ([], []) := by
      rw [hexist]
      unfold collectStarLists
      exact collectGo_skip_all _ nbr.SimobjID [] []
        (fun p hp => List.mem_map.mpr ⟨p, hp, rfl⟩)
    unfold insertData
    rw [hcollect]
    show some (t1 ++ []) = some t1
    rw [List.append_nil]

theorem insertData_idempotent_of_fmt6_roundtrip_witness :
    insertData "g" wNbrMap
        [⟨Int.ofNat 1, 1 / 2, 0, 0, true⟩, ⟨Int.ofNat 2, 1 / 2, 0, 0, false⟩]
      = some [⟨Int.ofNat 1, 1 / 2, 0, 0, true⟩, ⟨Int.ofNat 2, 1 / 2, 0, 0, false⟩] :=
  insertData_idempotent_of_fmt6_roundtrip "g" wNbrMap []
    [⟨Int.ofNat 1, 1 / 2, 0, 0, true⟩, ⟨Int.ofNat 2, 1 / 2, 0, 0, false⟩]
    (by
      intro p hp
      constructor
      · show fmt6 ((1 : ℚ) / 2) = (1 : ℚ) / 2
        exact fmt6_half_val
      · show fmt6 (0 : ℚ) = (0 : ℚ)
        exact fmt6_zero_val)
    rfl

lemma list_set_same {β : Type} :
    ∀ (l : List β) (n : Nat) (a : β), l.get? n = some a → l.set n a = l := by
  intro l
  induction l with
  | nil => intro n a h; cases h
  | cons b rest ih =>
    intro n a h
    cases n with
    | zero =>
      rw [List.get?_cons_zero] at h
      injection h with h
      show a :: rest = b :: rest
      rw [h]
    | succ n =>
      rw [List.get?_cons_succ] at h
      show b :: rest.set n a = b :: rest
      rw [ih n a h]

lemma searchDonutListIdGo_spec {α : Type} (starId : Nat) :
    ∀ (l : List (DonutImage α)) (k : Nat),
      (searchDonutListIdGo starId l k = -1
          ∧ starId ∉ l.map DonutImage.starId)
      ∨ (∃ n d, searchDonutListIdGo starId l k = Int.ofNat (k + n)
          ∧ l.get? n = some d ∧ d.starId = starId) := by
  intro l
  induction l with
  | nil =>
    intro k
    left
    exact ⟨rfl, by simp⟩
  | cons d rest ih =>
    intro k
    by_cases hd : (d.starId == starId) = true
    · right
      refine ⟨0, d, ?_, rfl, by simpa using hd⟩
      show (if d.starId == starId then Int.ofNat k
          else searchDonutListIdGo starId rest (k + 1)) = Int.ofNat (k + 0)
      rw [if_pos hd, Nat.add_zero]
    · have hstep : searchDonutListIdGo starId (d :: rest) k
          = searchDonutListIdGo starId rest (k + 1) := by
        show (if d.starId == starId then Int.ofNat k
            else searchDonutListIdGo starId rest (k + 1)) = _
        rw [if_neg hd]
      rcases ih (k + 1) with ⟨h1, h2⟩ | ⟨n, d2, h1, h2, h3⟩
      · left
        refine ⟨by rw [hstep]; exact h1, ?_⟩
        rw [List.map_cons, List.mem_cons]
        rintro (h | h)
        · exact hd (by simp [h])
        · exact h2 h
      · right
        refine ⟨n + 1, d2, ?_, by rw [List.get?_cons_succ]; exact h2, h3⟩
        rw [hstep, h1]
        congr 1
        omega

lemma searchDonutListId_neg_iff {α : Type} (l : List (DonutImage α)) (starId : Nat) :
    searchDonutListId l starId < 0 ↔ starId ∉ l.map DonutImage.starId := by
  unfold searchDonutListId
  rcases searchDonutListIdGo_spec starId l 0 with ⟨h1, h2⟩ | ⟨n, d, h1, h2, h3⟩
  · rw [h1]
    constructor
    · intro _; exact h2
    · intro _; norm_num
  · rw [h1]
    constructor
    · intro h
      exact absurd h (not_lt.mpr (Int.ofNat_nonneg _))
    · intro h
      exfalso
      exact h (List.mem_map.mpr ⟨d, List.get?_mem h2, h3⟩)

lemma searchDonutListId_found {α : Type} {l : List (DonutImage α)} {starId : Nat}
    (h : ¬ searchDonutListId l starId < 0) :
    ∃ n d, searchDonutListId l starId = Int.ofNat n ∧ l.get? n = some d
      ∧ d.starId = starId := by
  rcases searchDonutListIdGo_spec starId l 0 with ⟨h1, _⟩ | ⟨n, d, h1, h2, h3⟩
  · exfalso
    apply h
    unfold searchDonutListId
    rw [h1]
    norm_num
  · refine ⟨n, d, ?_, h2, h3⟩
    unfold searchDonutListId
    rw [h1, Nat.zero_add]

lemma setDonutAt_of_get {α : Type} {l : List (DonutImage α)} {idx : Int}
    {d : DonutImage α} (hg : l.get? idx.toNat = some d) (jj : Nat) (img : α) :
    setDonutAt l idx jj img
      = l.set idx.toNat (if jj == 0 then d.setImg (some img) none
          else if jj == 1 then d.setImg none (some img) else d) := by
  unfold setDonutAt
  rw [hg]

lemma setDonutAt_ids {α : Type} (l : List (DonutImage α)) (idx : Int) (jj : Nat)
    (img : α) :
    (setDonutAt l idx jj img).map DonutImage.starId = l.map DonutImage.starId := by
  cases hg : l.get? idx.toNat with
  | none =>
    unfold setDonutAt
    rw [hg]
  | some d =>
    rw [setDonutAt_of_get hg jj img, List.map_set]
    have hid : (if jj == 0 then d.setImg (some img) none
        else if jj == 1 then d.setImg none (some img) else d).starId = d.starId := by
      split
      · rfl
      · split
        · rfl
        · rfl
    rw [hid]
    apply list_set_same
    rw [List.get?_map, hg]
    rfl

lemma setDonutAt_mem {α : Type} {l : List (DonutImage α)} {idx : Int} {jj : Nat}
    {img : α} :
    ∀ d2 ∈ setDonutAt l idx jj img,
      d2 ∈ l ∨ ∃ d, l.get? idx.toNat = some d ∧ d2.starId = d.starId := by
  intro d2 hd2
  cases hg : l.get? idx.toNat with
  | none =>
    unfold setDonutAt at hd2
    rw [hg] at hd2
    exact Or.inl hd2
  | some d =>
    rw [setDonutAt_of_get hg jj img] at hd2
    rcases List.mem_or_eq_of_mem_set hd2 with h | h
    · exact Or.inl h
    · right
      refine ⟨d, rfl, ?_⟩
      rw [h]
      split
      · rfl
      · split
        · rfl
        · rfl

lemma procOnePass_none {α : Type} (gstS : α → Nat → SingleTarget α)
    (dbl : α → List Int → List Int → List Rat → Option α × Int × Int)
    (doDeblending : Bool) (ii starId jj : Nat) (l : List (DonutImage α)) :
    procOnePass gstS dbl doDeblending none ii starId jj l = some l := rfl

lemma procOnePass_some {α : Type} (gstS : α → Nat → SingleTarget α)
    (dbl : α → List Int → List Int → List Rat → Option α × Int × Int)
    (doDeblending : Bool) (img : α) (ii starId jj : Nat)
    (l : List (DonutImage α)) :
    procOnePass gstS dbl doDeblending (some img) ii starId jj l
      = match donutDeblendStep dbl doDeblending (gstS img ii) with
        | none => none
        | some (none, _, _) => some l
        | some (some imgDeblend, realcx, realcy) =>
          some (procAddDonut (gstS img ii) l starId jj imgDeblend realcx realcy) := rfl

lemma procOnePass_ids {α : Type} {gstS : α → Nat → SingleTarget α}
    {dbl : α → List Int → List Int → List Rat → Option α × Int × Int}
    {doDeblending : Bool} {ccdImg : Option α} {ii starId jj : Nat}
    {l l2 : List (DonutImage α)}
    (h : procOnePass gstS dbl doDeblending ccdImg ii starId jj l = some l2) :
    l2.map DonutImage.starId = l.map DonutImage.starId
    ∨ (l2.map DonutImage.starId = l.map DonutImage.starId ++ [starId]
        ∧ starId ∉ l.map DonutImage.starId) := by
  cases ccdImg with
  | none =>
    rw [procOnePass_none] at h
    injection h with h
    subst h
    left
    rfl
  | some img =>
    rw [procOnePass_some] at h
    cases hds : donutDeblendStep dbl doDeblending (gstS img ii) with
    | none => rw [hds] at h; cases h
    | some trip =>
      obtain ⟨io, cx, cy⟩ := trip
      cases io with
      | none =>
        rw [hds] at h
        injection h with h
        subst h
        left
        rfl
      | some imgDeblend =>
        rw [hds] at h
        injection h with h
        subst h
        unfold procAddDonut
        by_cases hneg : searchDonutListId l starId < 0
        · rw [if_pos hneg]
          right
          constructor
          · rw [setDonutAt_ids]
            simp
          · exact (searchDonutListId_neg_iff l starId).mp hneg
        · rw [if_neg hneg]
          left
          exact setDonutAt_ids l _ jj imgDeblend

lemma procOnePass_other_ids {α : Type} {gstS : α → Nat → SingleTarget α}
    {dbl : α → List Int → List Int → List Rat → Option α × Int × Int}
    {doDeblending : Bool} {ccdImg : Option α} {ii starId jj : Nat}
    {l l2 : List (DonutImage α)}
    (h : procOnePass gstS dbl doDeblending ccdImg ii starId jj l = some l2) :
    ∀ d2 ∈ l2, d2.starId ≠ starId → d2 ∈ l := by
  cases ccdImg with
  | none =>
    rw [procOnePass_none] at h
    injection h with h
    subst h
    intro d2 hd2 _
    exact hd2
  | some img =>
    rw [procOnePass_some] at h
    cases hds : donutDeblendStep dbl doDeblending (gstS img ii) with
    | none => rw [hds] at h; cases h
    | some trip =>
      obtain ⟨io, cx, cy⟩ := trip
      cases io with
      | none =>
        rw [hds] at h
        injection h with h
        subst h
        intro d2 hd2 _
        exact hd2
      | some imgDeblend =>
        rw [hds] at h
        injection h with h
        subst h
        intro d2 hd2 hne
        unfold procAddDonut at hd2
        by_cases hneg : searchDonutListId l starId < 0
        · rw [if_pos hneg] at hd2
          rcases setDonutAt_mem d2 hd2 with hmem | ⟨d, hg, hid⟩
          · rcases List.mem_append.mp hmem with hc | hc
            · exact hc
            · rw [List.mem_singleton] at hc
              exact absurd (by rw [hc]) hne
          · exfalso
            have hfound : ¬ searchDonutListId
                (l ++ [(⟨starId, cx + (gstS img ii).offsetX, cy + (gstS img ii).offsetY,
                  none, none⟩ : DonutImage α)]) starId < 0 := by
              rw [searchDonutListId_neg_iff]
              intro hcon
              exact hcon (by simp)
            obtain ⟨n, d3, he, hg2, hid2⟩ := searchDonutListId_found hfound
            rw [he, show (Int.ofNat n).toNat = n from rfl, hg2] at hg
            have hdd : d3 = d := by injection hg
            exact hne (by rw [hid, ← hdd, hid2])
        · rw [if_neg hneg] at hd2
          rcases setDonutAt_mem d2 hd2 with hmem | ⟨d, hg, hid⟩
          · exact hmem
          · exfalso
            obtain ⟨n, d3, he, hg2, hid2⟩ := searchDonutListId_found hneg
            rw [he, show (Int.ofNat n).toNat = n from rfl, hg2] at hg
            have hdd : d3 = d := by injection hg
            exact hne (by rw [hid, ← hdd, hid2])

lemma procOnePass_nodup {α : Type} {gstS : α → Nat → SingleTarget α}
    {dbl : α → List Int → List Int → List Rat → Option α × Int × Int}
    {doDeblending : Bool} {ccdImg : Option α} {ii starId jj : Nat}
    {l l2 : List (DonutImage α)}
    (h : procOnePass gstS dbl doDeblending ccdImg ii starId jj l = some l2)
    (hn : (l.map DonutImage.starId).Nodup) :
    (l2.map DonutImage.starId).Nodup := by
  rcases procOnePass_ids h with h1 | ⟨h1, h2⟩
  · rw [h1]; exact hn
  · rw [h1, List.nodup_append]
    refine ⟨hn, List.nodup_singleton _, ?_⟩
    intro a ha hb
    rw [List.mem_singleton] at hb
    subst hb
    exact h2 ha

lemma processStar_nodup {α : Type} {gstS : α → Nat → SingleTarget α}
    {dbl : α → List Int → List Int → List Rat → Option α × Int × Int}
    {doDeblending : Bool} {intraCcd extraCcd : Option α} {ii starId : Nat}
    {l l2 : List (DonutImage α)}
    (h : processStar gstS dbl doDeblending intraCcd extraCcd ii starId l = some l2)
    (hn : (l.map DonutImage.starId).Nodup) :
    (l2.map DonutImage.starId).Nodup := by
  unfold processStar at h
  cases h0 : procOnePass gstS dbl doDeblending intraCcd ii starId 0 l with
  | none => rw [h0] at h; cases h
  | some l1 =>
    rw [h0] at h
    exact procOnePass_nodup h (procOnePass_nodup h0 hn)

lemma processStars_cons {α : Type} (gstS : α → Nat → SingleTarget α)
    (dbl : α → List Int → List Int → List Rat → Option α × Int × Int)
    (doDeblending : Bool) (intraCcd extraCcd : Option α) (ii starId : Nat)
    (rest : List (Nat × Nat)) (l : List (DonutImage α)) :
    processStars gstS dbl doDeblending intraCcd extraCcd ((ii, starId) :: rest) l
      = match processStar gstS dbl doDeblending intraCcd extraCcd ii starId l with
        | none => none
        | some l2 => processStars gstS dbl doDeblending intraCcd extraCcd rest l2 := by
  conv_lhs => rw [processStars]

lemma processStars_nodup {α : Type} (gstS : α → Nat → SingleTarget α)
    (dbl : α → List Int → List Int → List Rat → Option α × Int × Int)
    (doDeblending : Bool) (intraCcd extraCcd : Option α) :
    ∀ (pairs : List (Nat × Nat)) (l l2 : List (DonutImage α)),
      processStars gstS dbl doDeblending intraCcd extraCcd pairs l = some l2 →
      (l.map DonutImage.starId).Nodup → (l2.map DonutImage.starId).Nodup := by
  intro pairs
  induction pairs with
  | nil =>
    intro l l2 h hn
    injection h with h
    subst h
    exact hn
  | cons p rest ih =>
    intro l l2 h hn
    obtain ⟨ii, starId⟩ := p
    rw [processStars_cons] at h
    cases hstar : processStar gstS dbl doDeblending intraCcd extraCcd ii starId l with
    | none => rw [hstar] at h; cases h
    | some l1 =>
      rw [hstar] at h
      exact ih l1 l2 h (processStar_nodup hstar hn)

lemma getDonutMapGo_cons {α : Type} (gst : String → α → Nat → SingleTarget α)
    (dbl : String → α → List Int → List Int → List Rat → Option α × Int × Int)
    (nbrIds : String → List Nat) (doDeblending : Bool) (sensorName : String)
    (intraCcd extraCcd : Option α) (rest : List (String × Option α × Option α))
    (donutMap : List (String × List (DonutImage α))) :
    getDonutMapGo gst dbl nbrIds doDeblending
        ((sensorName, intraCcd, extraCcd) :: rest) donutMap
      = match processSensor (gst sensorName) (dbl sensorName) doDeblending
            intraCcd extraCcd (nbrIds sensorName) with
        | none => none
        | some l =>
          getDonutMapGo gst dbl nbrIds doDeblending rest
            (if l.isEmpty then donutMap else donutMap ++ [(sensorName, l)]) := by
  conv_lhs => rw [getDonutMapGo]

lemma getDonutMapGo_nodup {α : Type} (gst : String → α → Nat → SingleTarget α)
    (dbl : String → α → List Int → List Int → List Rat → Option α × Int × Int)
    (nbrIds : String → List Nat) (doDeblending : Bool) :
    ∀ (sensors : List (String × Option α × Option α))
      (acc m : List (String × List (DonutImage α))),
      getDonutMapGo gst dbl nbrIds doDeblending sensors acc = some m →
      (∀ s l, (s, l) ∈ acc → (l.map DonutImage.starId).Nodup) →
      ∀ s l, (s, l) ∈ m → (l.map DonutImage.starId).Nodup := by
  intro sensors
  induction sensors with
  | nil =>
    intro acc m h hacc
    injection h with h
    subst h
    exact hacc
  | cons p rest ih =>
    intro acc m h hacc
    obtain ⟨sensorName, intraCcd, extraCcd⟩ := p
    rw [getDonutMapGo_cons] at h
    cases hsens : processSensor (gst sensorName) (dbl sensorName) doDeblending
        intraCcd extraCcd (nbrIds sensorName) with
    | none => rw [hsens] at h; cases h
    | some l0 =>
      rw [hsens] at h
      refine ih _ m h ?_
      intro s l hmem
      by_cases he : l0.isEmpty
      · rw [if_pos he] at hmem
        exact hacc s l hmem
      · rw [if_neg he] at hmem
        rcases List.mem_append.mp hmem with hc | hc
        · exact hacc s l hc
        · rw [List.mem_singleton] at hc
          injection hc with hc1 hc2
          subst hc2
          unfold processSensor at hsens
          exact processStars_nodup _ _ _ _ _ _ [] l hsens (by simp)

lemma filter_starId_length_le_one {α : Type} :
    ∀ (l : List (DonutImage α)), (l.map DonutImage.starId).Nodup →
      ∀ i : Nat, (l.filter (fun d => d.starId == i)).length ≤ 1 := by
  intro l
  induction l with
  | nil => intro _ i; simp
  | cons d rest ih =>
    intro hn i
    rw [List.map_cons, List.nodup_cons] at hn
    rw [List.filter_cons]
    by_cases hd : (d.starId == i) = true
    · rw [if_pos hd]
      have hrest : rest.filter (fun e => e.starId == i) = [] := by
        rw [List.filter_eq_nil_iff]
        intro e he hei
        apply hn.1
        have h1 : d.starId = i := by simpa using hd
        have h2 : e.starId = i := by simpa using hei
        rw [show d.starId = e.starId from by rw [h1, h2]]
        exact List.mem_map_of_mem _ he
      rw [hrest]
      simp
    · rw [if_neg hd]
      exact ih hn.2 i

lemma donutDeblendStep_passthrough {α : Type}
    (dbl : α → List Int → List Int → List Rat → Option α × Int × Int)
    (doDeblending : Bool) (st : SingleTarget α) (x y : Int) (xs ys : List Int)
    (hbr : doDeblending = false ∨ (doDeblending = true ∧ st.magRatio.length = 1))
    (hx : st.allStarPosX = x :: xs) (hy : st.allStarPosY = y :: ys) :
    donutDeblendStep dbl doDeblending st = some (some st.singleSciNeiImg, x, y) := by
  unfold donutDeblendStep
  have hcond : ((st.magRatio.length == 1 && doDeblending) || (!doDeblending)) = true := by
    rcases hbr with h | ⟨h1, h2⟩
    · rw [h]
      simp
    · rw [h1, h2]
      simp
  rw [if_pos hcond, hx, hy]

lemma donutDeblendStep_crowded {α : Type} (st : SingleTarget α)
    (dbl : α → List Int → List Int → List Rat → Option α × Int × Int)
    (hlen : 3 ≤ st.magRatio.length) :
    donutDeblendStep dbl true st = some (none, 0, 0) := by
  unfold donutDeblendStep
  have h1 : (st.magRatio.length == 1) = false := by
    cases h : (st.magRatio.length == 1) with
    | false => rfl
    | true => exact absurd (by simpa using h) (by omega)
  have h2 : (st.magRatio.length == 2) = false := by
    cases h : (st.magRatio.length == 2) with
    | false => rfl
    | true => exact absurd (by simpa using h) (by omega)
  rw [h1, h2]
  rfl

/-- C1 (amended): for a candidate star processed by `getDonutMap`, when
deblending is disabled, or when it is enabled and exactly one star lies in
the cutout, the raw cutout is passed through unchanged and the candidate
nominal position is used as its center; but when three or more stars are
present with deblending enabled, the star is dropped for that defocal image
— the donut list is returned unchanged and no entry is created — rather
than passed through. -/
theorem donut_passthrough_or_crowded_drop {α : Type}
    (gstS : α → Nat → SingleTarget α)
    (dbl : α → List Int → List Int → List Rat → Option α × Int × Int)
    (doDeblending : Bool) (st : SingleTarget α) (x y : Int) (xs ys : List Int)
    (img : α) (ii starId jj : Nat) (l : List (DonutImage α)) :
    ((doDeblending = false ∨ (doDeblending = true ∧ st.magRatio.length = 1)) →
        st.allStarPosX = x :: xs → st.allStarPosY = y :: ys →
        donutDeblendStep dbl doDeblending st = some (some st.singleSciNeiImg, x, y))
    ∧ (doDeblending = true → 3 ≤ (gstS img ii).magRatio.length →
        procOnePass gstS dbl doDeblending (some img) ii starId jj l = some l) := by
  constructor
  · intro hbr hx hy
    exact donutDeblendStep_passthrough dbl doDeblending st x y xs ys hbr hx hy
  · intro hdeb hlen
    subst hdeb
    rw [procOnePass_some, donutDeblendStep_crowded (gstS img ii) dbl hlen]

theorem donut_passthrough_or_crowded_drop_witness :
    donutDeblendStep (cDbl "s") true (⟨7, [3], [4], [1], 10, 20⟩ : SingleTarget Nat)
        = some (some 7, 3, 4)
      ∧ procOnePass (cGst3 "s") (cDbl "s") true (some 5) 0 9 1 [] = some [] :=
  ⟨(donut_passthrough_or_crowded_drop (cGst3 "s") (cDbl "s") true
      (⟨7, [3], [4], [1], 10, 20⟩ : SingleTarget Nat) 3 4 [] [] 5 0 9 1 []).1
      (Or.inr ⟨rfl, rfl⟩) rfl rfl,
    (donut_passthrough_or_crowded_drop (cGst3 "s") (cDbl "s") true
      (⟨7, [3], [4], [1], 10, 20⟩ : SingleTarget Nat) 3 4 [] [] 5 0 9 1 []).2
      rfl (by decide)⟩

/-- C1 counterexample: with deblending enabled and three stars reported in
the cutout of the only candidate star, `getDonutMap` returns an empty donut
map — the star is silently dropped (no entry with the raw cutout exists),
contradicting the claim that the raw cutout is passed through unchanged when
more than two stars are present. -/
theorem getDonutMap_crowded_star_dropped_cex :
    getDonutMap cGst3 cDbl (fun _ => [9]) [("R:0,0 S:2,2,A", (some 5, some 6))] true
      = some [] := rfl

/-- C3: in the donut map returned by `getDonutMap`, each star identifier
appears in at most one `DonutImage` entry of each detector, and a focal pass
for a given star identifier touches only the entry with that identifier
(every entry with a different identifier is passed through unchanged):
correlation of the intra and extra passes is by the catalog star identifier,
not positional proximity. -/
theorem getDonutMap_correlates_by_id {α : Type}
    (gst : String → α → Nat → SingleTarget α)
    (dbl : String → α → List Int → List Int → List Rat → Option α × Int × Int)
    (nbrIds : String → List Nat) (wfsImgMap : List (String × Option α × Option α))
    (doDeblending : Bool) (m : List (String × List (DonutImage α)))
    (h : getDonutMap gst dbl nbrIds wfsImgMap doDeblending = some m) :
    (∀ s l, (s, l) ∈ m → ∀ i : Nat, (l.filter (fun d => d.starId == i)).length ≤ 1)
    ∧ (∀ sensorName ccdImg ii starId jj l l2,
        procOnePass (gst sensorName) (dbl sensorName) doDeblending ccdImg ii starId
          jj l = some l2 → ∀ d2 ∈ l2, d2.starId ≠ starId → d2 ∈ l) := by
  constructor
  · intro s l hmem i
    refine filter_starId_length_le_one l ?_ i
    exact getDonutMapGo_nodup gst dbl nbrIds doDeblending wfsImgMap [] m h
      (by intro s2 l2 hl; cases hl) s l hmem
  · intro sensorName ccdImg ii starId jj l l2 hpass
    exact procOnePass_other_ids hpass

theorem getDonutMap_correlates_by_id_witness :
    (([⟨9, 13, 24, none, some 5⟩] : List (DonutImage Nat)).filter
        (fun d => d.starId == 9)).length ≤ 1 :=
  (getDonutMap_correlates_by_id cGst1 cDbl (fun _ => [9])
      [("R:0,0 S:2,2,A", (none, some 5))] false
      [("R:0,0 S:2,2,A", [⟨9, 13, 24, none, some 5⟩])] rfl).1
    "R:0,0 S:2,2,A" [⟨9, 13, 24, none, some 5⟩] (by decide) 9

lemma procAddDonut_fresh_intra {α : Type} (st : SingleTarget α) (starId : Nat)
    (imgDeblend : α) (realcx realcy : Int) :
    procAddDonut st [] starId 0 imgDeblend realcx realcy
      = [⟨starId, realcx + st.offsetX, realcy + st.offsetY, some imgDeblend, none⟩] := by
  unfold procAddDonut
  rw [show searchDonutListId ([] : List (DonutImage α)) starId = -1 from rfl,
    if_pos (by norm_num)]
  rw [show searchDonutListId
      ([] ++ [(⟨starId, realcx + st.offsetX, realcy + st.offsetY, none, none⟩ :
        DonutImage α)]) starId = Int.ofNat 0 from by
    show (if (⟨starId, realcx + st.offsetX, realcy + st.offsetY, none, none⟩ :
        DonutImage α).starId == starId then Int.ofNat 0
      else searchDonutListIdGo starId [] (0 + 1)) = Int.ofNat 0
    rw [if_pos (by simp)]]
  rfl

lemma procAddDonut_fresh_extra {α : Type} (st : SingleTarget α) (starId : Nat)
    (imgDeblend : α) (realcx realcy : Int) :
    procAddDonut st [] starId 1 imgDeblend realcx realcy
      = [⟨starId, realcx + st.offsetX, realcy + st.offsetY, none, some imgDeblend⟩] := by
  unfold procAddDonut
  rw [show searchDonutListId ([] : List (DonutImage α)) starId = -1 from rfl,
    if_pos (by norm_num)]
  rw [show searchDonutListId
      ([] ++ [(⟨starId, realcx + st.offsetX, realcy + st.offsetY, none, none⟩ :
        DonutImage α)]) starId = Int.ofNat 0 from by
    show (if (⟨starId, realcx + st.offsetX, realcy + st.offsetY, none, none⟩ :
        DonutImage α).starId == starId then Int.ofNat 0
      else searchDonutListIdGo starId [] (0 + 1)) = Int.ofNat 0
    rw [if_pos (by simp)]]
  rfl

/-- C4: a candidate star with only one of the two defocal images available
still gets a `DonutImage` entry in the map returned by `getDonutMap`: the
entry is created on first sight with the pass that has an image, the
intra-focal pass fills `intraImg` and the extra-focal pass fills `extraImg`,
the missing role stays `None`, and the incomplete pair is retained in the
map rather than dropped. -/
theorem getDonutMap_one_sided_pair {α : Type}
    (gst : String → α → Nat → SingleTarget α)
    (dbl : String → α → List Int → List Int → List Rat → Option α × Int × Int)
    (nbrIds : String → List Nat) (s : String) (img : α) (starId : Nat)
    (doDeblending : Bool) (x y : Int) (xs ys : List Int)
    (hbr : doDeblending = false
      ∨ (doDeblending = true ∧ (gst s img 0).magRatio.length = 1))
    (hx : (gst s img 0).allStarPosX = x :: xs)
    (hy : (gst s img 0).allStarPosY = y :: ys)
    (hids : nbrIds s = [starId]) :
    getDonutMap gst dbl nbrIds [(s, (none, some img))] doDeblending
      = some [(s, [⟨starId, x + (gst s img 0).offsetX, y + (gst s img 0).offsetY,
          none, some (gst s img 0).singleSciNeiImg⟩])]
    ∧ getDonutMap gst dbl nbrIds [(s, (some img, none))] doDeblending
      = some [(s, [⟨starId, x + (gst s img 0).offsetX, y + (gst s img 0).offsetY,
          some (gst s img 0).singleSciNeiImg, none⟩])] := by
  have hds : donutDeblendStep (dbl s) doDeblending (gst s img 0)
      = some (some (gst s img 0).singleSciNeiImg, x, y) :=
    donutDeblendStep_passthrough (dbl s) doDeblending (gst s img 0) x y xs ys hbr hx hy
  constructor
  · -- only the extra-focal image is available
    have hpass : procOnePass (gst s) (dbl s) doDeblending (some img) 0 starId 1 []
        = some [⟨starId, x + (gst s img 0).offsetX, y + (gst s img 0).offsetY,
            none, some (gst s img 0).singleSciNeiImg⟩] := by
      rw [procOnePass_some, hds]
      show some (procAddDonut (gst s img 0) [] starId 1
        (gst s img 0).singleSciNeiImg x y) = _
      rw [procAddDonut_fresh_extra]
    have hstar : processStar (gst s) (dbl s) doDeblending none (some img) 0 starId []
        = some [⟨starId, x + (gst s img 0).offsetX, y + (gst s img 0).offsetY,
            none, some (gst s img 0).singleSciNeiImg⟩] := by
      unfold processStar
      rw [procOnePass_none]
      exact hpass
    show getDonutMapGo gst dbl nbrIds doDeblending [(s, (none, some img))] [] = _
    rw [getDonutMapGo_cons]
    have hsens : processSensor (gst s) (dbl s) doDeblending none (some img) (nbrIds s)
        = some [⟨starId, x + (gst s img 0).offsetX, y + (gst s img 0).offsetY,
            none, some (gst s img 0).singleSciNeiImg⟩] := by
      unfold processSensor
      rw [hids]
      show processStars (gst s) (dbl s) doDeblending none (some img) [(0, starId)] [] = _
      rw [processStars_cons, hstar]
      rfl
    rw [hsens]
    rfl
  · -- only the intra-focal image is available
    have hpass : procOnePass (gst s) (dbl s) doDeblending (some img) 0 starId 0 []
        = some [⟨starId, x + (gst s img 0).offsetX, y + (gst s img 0).offsetY,
            some (gst s img 0).singleSciNeiImg, none⟩] := by
      rw [procOnePass_some, hds]
      show some (procAddDonut (gst s img 0) [] starId 0
        (gst s img 0).singleSciNeiImg x y) = _
      rw [procAddDonut_fresh_intra]
    have hstar : processStar (gst s) (dbl s) doDeblending (some img) none 0 starId []
        = some [⟨starId, x + (gst s img 0).offsetX, y + (gst s img 0).offsetY,
            some (gst s img 0).singleSciNeiImg, none⟩] := by
      unfold processStar
      rw [hpass]
      rfl
    show getDonutMapGo gst dbl nbrIds doDeblending [(s, (some img, none))] [] = _
    rw [getDonutMapGo_cons]
    have hsens : processSensor (gst s) (dbl s) doDeblending (some img) none (nbrIds s)
        = some [⟨starId, x + (gst s img 0).offsetX, y + (gst s img 0).offsetY,
            some (gst s img 0).singleSciNeiImg, none⟩] := by
      unfold processSensor
      rw [hids]
      show processStars (gst s) (dbl s) doDeblending (some img) none [(0, starId)] [] = _
      rw [processStars_cons, hstar]
      rfl
    rw [hsens]
    rfl

theorem getDonutMap_one_sided_pair_witness :
    getDonutMap cGst1 cDbl (fun _ => [9]) [("R:0,0 S:2,2,B", (none, some 5))] false
        = some [("R:0,0 S:2,2,B", [⟨9, 13, 24, none, some 5⟩])]
      ∧ getDonutMap cGst1 cDbl (fun _ => [9]) [("R:0,0 S:2,2,B", (some 5, none))] false
        = some [("R:0,0 S:2,2,B", [⟨9, 13, 24, some 5, none⟩])] :=
  getDonutMap_one_sided_pair cGst1 cDbl (fun _ => [9]) "R:0,0 S:2,2,B" 5 9 false 3 4
    [] [] (Or.inl rfl) rfl rfl rfl
